import Mathlib

/-!
Verification of the ASID-allocation and TLB-shootdown layer (pmap_tlb.c).

The development shallowly embeds the source file's data model and operations:

* the TLB invalidation operation tags (`TlbInvOp`), including the numeric
  merge table macro `TLBINV_MAP` and its two instantiations
  `TLBINV_USER_MAP` / `TLBINV_KERNEL_MAP`;
* a TLB context (`Ctx`) holding the ASID bitmap (modelled as a `Finset` of
  in-use ASIDs; the C word array is semantically exactly this set and the
  word-at-a-time first-clear-bit scan computes the least ASID not in the
  set), the free count, the allocation hint, the active binding list, the
  pending shootdown operation and victim, and the set of CPUs served;
* per-pmap CPU sets (`Sys`): `pm_active`, `pm_onproc`, and the per-CPU
  current-ASID shadow;
* the operations `pmap_tlb_pai_reset`, `pmap_tlb_asid_reinit`,
  `pmap_tlb_asid_alloc`, `pmap_tlb_asid_acquire`,
  `pmap_tlb_shootdown_process`, `pmap_tlb_shootdown_bystanders` and
  `pmap_tlb_asid_release_all`.

Hardware effects (TLB invalidations, the resident-ASID enumeration, setting
the ASID register) are recorded in a ghost trace (`HwOp`) so that theorems
can speak about which flushes an operation performs.  The configuration
modelled is the multiprocessor, shootdown-capable one
(MULTIPROCESSOR && PMAP_TLB_NEED_SHOOTDOWN && PMAP_TLB_MAX > 1); the
compile-time constants KERNEL_PID and PMAP_TLB_FLUSH_ASID_ON_RESET and the
MULTIPROCESSOR flag itself are carried as fields of the context so theorems
can quantify over configurations.
-/

/-- ASIDs, pmaps (address spaces) and CPU indices are all identified by
natural numbers in this embedding.  The kernel pmap (pmap_kernel() in the source) is a fixed distinguished
address space; we give it identifier 0. -/
def kernelPmap : Nat := 0

/-- The five TLB invalidation operations of enum tlb_invalidate_op.
Modelled from the spec: the enum declaration lives in a header that is not
part of the supplied source; its tags, in the spec's lattice order
none < one < all-non-kernel < all-kernel < all, carry the values 0..4 used
by the TLBINV_MAP shift arithmetic. -/
inductive TlbInvOp where
  | nobody
  | one
  | alluser
  | allkernel
  | all
deriving DecidableEq, Repr

/-- Numeric value of a tlb_invalidate_op tag. -/
def TlbInvOp.tag : TlbInvOp → Nat
  | .nobody => 0
  | .one => 1
  | .alluser => 2
  | .allkernel => 3
  | .all => 4

/-- Decode a numeric tag back to a tlb_invalidate_op. -/
def tagToOp : Nat → TlbInvOp
  | 0 => .nobody
  | 1 => .one
  | 2 => .alluser
  | 3 => .allkernel
  | 4 => .all
  | _ => .nobody

/-- The TLBINV_MAP macro: a 15-bit lookup table, three bits per entry,
indexed by the current operation.  Source:
`((((nobody) << 3*TLBINV_NOBODY) | ... | ((all) << 3*TLBINV_ALL)) >> 3*(op)) & 7`. -/
def TLBINV_MAP (op nobody one alluser allkernel all : Nat) : Nat :=
  ((nobody <<< (3 * 0) ||| one <<< (3 * 1) ||| alluser <<< (3 * 2) |||
    allkernel <<< (3 * 3) ||| all <<< (3 * 4)) >>> (3 * op)) &&& 7

/-- TLBINV_USER_MAP(op): merge a user (single address space) shootdown
request into the pending operation `op`. -/
def TLBINV_USER_MAP (op : Nat) : Nat :=
  TLBINV_MAP op TlbInvOp.one.tag TlbInvOp.alluser.tag TlbInvOp.alluser.tag
    TlbInvOp.all.tag TlbInvOp.all.tag

/-- TLBINV_KERNEL_MAP(op): merge a kernel shootdown request into the
pending operation `op`. -/
def TLBINV_KERNEL_MAP (op : Nat) : Nat :=
  TLBINV_MAP op TlbInvOp.allkernel.tag TlbInvOp.all.tag TlbInvOp.all.tag
    TlbInvOp.allkernel.tag TlbInvOp.all.tag

/-- The user merge table as a function on operation tags. -/
def userMap (op : TlbInvOp) : TlbInvOp := tagToOp (TLBINV_USER_MAP op.tag)

/-- The kernel merge table as a function on operation tags. -/
def kernelMap (op : TlbInvOp) : TlbInvOp := tagToOp (TLBINV_KERNEL_MAP op.tag)

/-- A shootdown request: either for one user address space or for the
kernel (the two callers of the merge tables in
pmap_tlb_shootdown_bystanders). -/
inductive SdReq where
  | user (pm : Nat)
  | kern
deriving DecidableEq, Repr

/-- The merge performed by pmap_tlb_shootdown_bystanders on a context's
pending (operation, victim) pair when the request targets a CPU that has
the pmap onproc: a kernel request applies TLBINV_KERNEL_MAP and clears the
victim; a user request for the already-recorded victim leaves the state
unchanged; any other user request applies TLBINV_USER_MAP and records the
requesting pmap as victim exactly when the result is TLBINV_ONE. -/
def sdMerge (req : SdReq) (op : TlbInvOp) (victim : Option Nat) :
    TlbInvOp × Option Nat :=
  match req with
  | .kern => (kernelMap op, none)
  | .user pm =>
    if victim = some pm then (op, victim)
    else
      let op1 := userMap op
      (op1, if op1 = TlbInvOp.one then some pm else none)

/-- Abstract scope of a pending shootdown: the five-level join-semilattice
of the spec, with the single-target level carrying its victim. -/
inductive Scope where
  | nobody
  | one (pm : Nat)
  | alluser
  | allkernel
  | all
deriving DecidableEq, Repr

/-- The semilattice order on scopes: nobody is least, one pm is below
alluser and all, alluser and allkernel are below all, and all is top.
Two single-target scopes are comparable only when they name the same
address space. -/
def Scope.sle : Scope → Scope → Bool
  | .nobody, _ => true
  | .one p, .one q => p = q
  | .one _, .alluser => true
  | .one _, .all => true
  | .alluser, .alluser => true
  | .alluser, .all => true
  | .allkernel, .allkernel => true
  | .allkernel, .all => true
  | .all, .all => true
  | _, _ => false

/-- Join (least upper bound) of two scopes.  Two distinct single-target
scopes join to alluser: a single slot can name only one victim. -/
def Scope.join : Scope → Scope → Scope
  | .nobody, t => t
  | s, .nobody => s
  | .all, _ => .all
  | _, .all => .all
  | .one p, .one q => if p = q then .one p else .alluser
  | .one _, .alluser => .alluser
  | .alluser, .one _ => .alluser
  | .one _, .allkernel => .all
  | .allkernel, .one _ => .all
  | .alluser, .alluser => .alluser
  | .alluser, .allkernel => .all
  | .allkernel, .alluser => .all
  | .allkernel, .allkernel => .allkernel

/-- Scope denoted by a (pending operation, victim slot) pair. -/
def sdScope (op : TlbInvOp) (victim : Option Nat) : Scope :=
  match op with
  | .nobody => .nobody
  | .one => .one (victim.getD 0)
  | .alluser => .alluser
  | .allkernel => .allkernel
  | .all => .all

/-- Scope demanded by a shootdown request. -/
def reqScope : SdReq → Scope
  | .user pm => .one pm
  | .kern => .allkernel

/-- Ghost record of a hardware TLB operation performed by the code. -/
inductive HwOp where
  | invAsids (lo hi : Nat)
  | invAll
  | invGlobals
  | recordAsids
  | setAsid (a : Nat)
deriving DecidableEq, Repr

/-- Pointwise function update (used for pai_asid and the per-pmap CPU
sets). -/
def upd {β : Type} (f : Nat → β) (a : Nat) (b : β) : Nat → β :=
  fun x => if x = a then b else f x

/-- One TLB context (struct pmap_tlb_info) together with the per-(pmap,
context) binding state.  `bitmap` is the set of in-use ASIDs
(ti_asid_bitmap); `pais` is the active list ti_pais (head = most recently
inserted); `asid_of pm` is pai_asid of the pmap's pmap_asid_info for this
context; `kcpuset` is ti_kcpuset.  `kernel_pid`, `flush_on_reset` and `mp`
embed the compile-time configuration KERNEL_PID,
PMAP_TLB_FLUSH_ASID_ON_RESET and MULTIPROCESSOR.  `hw` is the ghost trace
of hardware operations issued while operating on this context. -/
structure Ctx where
  kernel_pid : Nat
  flush_on_reset : Bool
  mp : Bool
  asid_max : Nat
  hint : Nat
  free : Nat
  bitmap : Finset Nat
  pais : List Nat
  asid_of : Nat → Nat
  invop : TlbInvOp
  victim : Option Nat
  kcpuset : Finset Nat
  hw : List HwOp

/-- System-wide per-pmap CPU sets and the per-CPU current-ASID shadow
(pm_active, pm_onproc, ci_pmap_asid_cur). -/
structure Sys where
  pm_active : Nat → Finset Nat
  pm_onproc : Nat → Finset Nat
  cur_asid : Nat → Nat

/-- TLBINFO_ASID_INITIAL_FREE(asid_max) = asid_max + 1 - (1 + KERNEL_PID). -/
def TLBINFO_ASID_INITIAL_FREE (asid_max kernel_pid : Nat) : Nat :=
  asid_max + 1 - (1 + kernel_pid)

/-- TLBINFO_ASID_RESET: the bitmap cleared back to the permanently reserved
prefix 0..KERNEL_PID. -/
def TLBINFO_ASID_RESET_SET (kernel_pid : Nat) : Finset Nat :=
  Finset.range (kernel_pid + 1)

/-- pmap_tlb_intersecting_onproc_p for the PMAP_TLB_MAX > 1 configuration:
does the pmap have an onproc CPU among those this context serves? -/
def pmap_tlb_intersecting_onproc_p (pm : Nat) (ti : Ctx) (ps : Sys) : Prop :=
  (ps.pm_onproc pm ∩ ti.kcpuset) ≠ ∅

instance (pm : Nat) (ti : Ctx) (ps : Sys) :
    Decidable (pmap_tlb_intersecting_onproc_p pm ti ps) := by
  unfold pmap_tlb_intersecting_onproc_p
  infer_instance

/-- pmap_tlb_intersecting_active_p for the PMAP_TLB_MAX > 1 configuration. -/
def pmap_tlb_intersecting_active_p (pm : Nat) (ti : Ctx) (ps : Sys) : Prop :=
  (ps.pm_active pm ∩ ti.kcpuset) ≠ ∅

instance (pm : Nat) (ti : Ctx) (ps : Sys) :
    Decidable (pmap_tlb_intersecting_active_p pm ti ps) := by
  unfold pmap_tlb_intersecting_active_p
  infer_instance

/-- pmap_tlb_pai_reset: unlink the binding from the active list; if the
platform flushes ASIDs on reset, flush it now on uniprocessor builds and,
if the ASID is still marked in use, mark it unused and return it to the
free pool; reset pai_asid to 0; on multiprocessor builds clear the
pm_active bits belonging to this context. -/
def pmap_tlb_pai_reset (ti : Ctx) (ps : Sys) (pm : Nat) : Ctx × Sys :=
  let a := ti.asid_of pm
  let pais1 := ti.pais.erase pm
  let hw1 := if ti.flush_on_reset ∧ ¬ti.mp then ti.hw ++ [HwOp.invAsids a a] else ti.hw
  let bm1 := if ti.flush_on_reset ∧ a ∈ ti.bitmap then ti.bitmap.erase a else ti.bitmap
  let free1 := if ti.flush_on_reset ∧ a ∈ ti.bitmap then ti.free + 1 else ti.free
  let ti1 : Ctx := { ti with
    pais := pais1
    hw := hw1
    bitmap := bm1
    free := free1
    asid_of := upd ti.asid_of pm 0 }
  let ps1 := if ti.mp then
      { ps with pm_active := upd ps.pm_active pm ((ps.pm_active pm) \ ti.kcpuset) }
    else ps
  (ti1, ps1)

/-- The walk at the end of pmap_tlb_asid_reinit over the active
binding list: an ASID belonging to an onproc pmap is re-marked used (at
the cost of one free slot) and survives; otherwise the binding survives
exactly when its ASID is already marked (recorded as resident), and is
reclaimed through pmap_tlb_pai_reset when it is not. -/
def reinitWalk : List Nat → Ctx → Sys → Ctx × Sys
  | [], ti, ps => (ti, ps)
  | pm :: rest, ti, ps =>
    let a := ti.asid_of pm
    if ti.mp ∧ pmap_tlb_intersecting_onproc_p pm ti ps then
      if a ∈ ti.bitmap then reinitWalk rest ti ps
      else
        reinitWalk rest { ti with bitmap := insert a ti.bitmap, free := ti.free - 1 } ps
    else if a ∈ ti.bitmap then reinitWalk rest ti ps
    else
      let r := pmap_tlb_pai_reset ti ps pm
      reinitWalk rest r.1 r.2

/-- pmap_tlb_asid_reinit, in the shootdown-capable configuration
(PMAP_TLB_NEED_SHOOTDOWN).  The free count and hint are restored and the
bitmap cleared to the reserved prefix; then, by scope: TLBINV_ALL flushes
everything; TLBINV_ALLUSER flushes all non-kernel ASIDs; TLBINV_NOBODY
records the set `resident` of ASIDs found in the hardware TLB
(tlb_record_asids, a hardware capability whose result we pass in as a
parameter) and either - when at least asid_max / 2 were found - flushes
all non-kernel ASIDs and clears the bitmap again, or charges the resident
ASIDs against the free count.  Finally the active list is walked.
TLBINV_ONE and TLBINV_ALLKERNEL panic in the source and are modelled as
leaving the freshly reset state.  `reinitPrep` is the state just after the
scope switch, before the walk over the active list; pmap_tlb_asid_reinit
embeds the source function pmap_tlb_asid_reinitialize (shortened name). -/
def reinitPrep (resident : Finset Nat) (ti : Ctx) (op : TlbInvOp) : Ctx :=
  let ti0 : Ctx := { ti with
    free := TLBINFO_ASID_INITIAL_FREE ti.asid_max ti.kernel_pid
    hint := ti.kernel_pid + 1
    bitmap := TLBINFO_ASID_RESET_SET ti.kernel_pid }
  match op with
  | .all => { ti0 with hw := ti0.hw ++ [HwOp.invAll] }
  | .alluser =>
    { ti0 with hw := ti0.hw ++ [HwOp.invAsids (ti0.kernel_pid + 1) ti0.asid_max] }
  | .nobody =>
    let found := resident.card
    let tiR : Ctx := { ti0 with
      bitmap := ti0.bitmap ∪ resident
      hw := ti0.hw ++ [HwOp.recordAsids] }
    if found ≥ ti.asid_max / 2 then
      { tiR with
        hw := tiR.hw ++ [HwOp.invAsids (tiR.kernel_pid + 1) tiR.asid_max]
        bitmap := TLBINFO_ASID_RESET_SET tiR.kernel_pid
        free := TLBINFO_ASID_INITIAL_FREE tiR.asid_max tiR.kernel_pid }
    else { tiR with free := tiR.free - found }
  | _ => ti0

def pmap_tlb_asid_reinit (resident : Finset Nat) (ti : Ctx) (ps : Sys)
    (op : TlbInvOp) : Ctx × Sys :=
  let ti1 := reinitPrep resident ti op
  reinitWalk ti1.pais ti1 ps

/-- Bounded search for the first ASID not in the in-use set, starting at
`i` with the given fuel. -/
def firstClearAux (s : Finset Nat) : Nat → Nat → Nat
  | 0, i => i
  | fuel + 1, i => if i ∈ s then firstClearAux s fuel (i + 1) else i

/-- The first ASID not marked in the in-use set.  The source finds it by a
word-at-a-time scan of the bitmap from word 0 (first word whose complement
is nonzero, then ffs of that complement); because every word before it is
all ones, that scan returns exactly the least clear bit of the whole
bitmap, which is what this function computes. -/
def firstClearBit (s : Finset Nat) : Nat :=
  firstClearAux s (s.card + 1) 0

/-- The hint actually probed by pmap_tlb_asid_alloc: on
PMAP_TLB_FLUSH_ASID_ON_RESET configurations a hint that ran past asid_max
is reset to the first non-reserved ASID. -/
def allocHint (ti : Ctx) : Nat :=
  if ti.flush_on_reset ∧ ti.hint > ti.asid_max then ti.kernel_pid + 1 else ti.hint

/-- The ASID chosen by pmap_tlb_asid_alloc: the hinted ASID when it is
free, otherwise the first clear bit of the bitmap. -/
def allocChosen (ti : Ctx) : Nat :=
  if allocHint ti ∈ ti.bitmap then firstClearBit ti.bitmap else allocHint ti

/-- pmap_tlb_asid_alloc: pick the hinted ASID if free, otherwise the first
clear bit of the bitmap; on PMAP_TLB_FLUSH_ASID_ON_RESET multiprocessor
configurations flush the chosen ASID from the hardware TLB; mark it used,
link the binding at the head of the active list, advance the hint past it,
decrement the free count, and (multiprocessor) merge this context's CPUs
into the pmap's pm_active set. -/
def pmap_tlb_asid_alloc (ti : Ctx) (ps : Sys) (pm : Nat) : Ctx × Sys :=
  let a := allocChosen ti
  let hw1 := if ti.mp ∧ ti.flush_on_reset then ti.hw ++ [HwOp.invAsids a a] else ti.hw
  let ti1 : Ctx := { ti with
    asid_of := upd ti.asid_of pm a
    hint := a + 1
    bitmap := insert a ti.bitmap
    pais := pm :: ti.pais
    free := ti.free - 1
    hw := hw1 }
  let ps1 := if ti.mp then
      { ps with pm_active := upd ps.pm_active pm ((ps.pm_active pm) ∪ ti.kcpuset) }
    else ps
  (ti1, ps1)

/-- PMAP_PAI_ASIDVALID_P.  Modelled from the spec: the macro lives in a
header not part of the supplied source; the spec describes reuse "if the
binding is already a valid ASID", where ASID 0 means unassigned. -/
def PMAP_PAI_ASIDVALID_P (ti : Ctx) (pm : Nat) : Prop :=
  ti.asid_of pm ≠ 0

instance (ti : Ctx) (pm : Nat) : Decidable (PMAP_PAI_ASIDVALID_P ti pm) := by
  unfold PMAP_PAI_ASIDVALID_P
  infer_instance

/-- tlbinfo_noasids_p.  Modelled from the spec: the helper lives in a
header not part of the supplied source; the spec defines exhaustion as
free-count 0. -/
def tlbinfo_noasids_p (ti : Ctx) : Prop :=
  ti.free = 0

instance (ti : Ctx) : Decidable (tlbinfo_noasids_p ti) := by
  unfold tlbinfo_noasids_p
  infer_instance

/-- pmap_tlb_asid_acquire for the current lwp running on CPU `c`: a no-op
for the kernel pmap; otherwise, if the binding has no valid ASID,
reinitialize the ASID space with scope TLBINV_NOBODY when it is exhausted
and then allocate; finally mark the pmap onproc on this CPU, remember the
ASID in the CPU-local shadow and program the hardware ASID register. -/
def pmap_tlb_asid_acquire (resident : Finset Nat) (pm : Nat) (c : Nat)
    (ti : Ctx) (ps : Sys) : Ctx × Sys :=
  if pm = kernelPmap then (ti, ps)
  else
    let r1 : Ctx × Sys :=
      if PMAP_PAI_ASIDVALID_P ti pm then (ti, ps)
      else
        let r0 : Ctx × Sys :=
          if tlbinfo_noasids_p ti then
            pmap_tlb_asid_reinit resident ti ps TlbInvOp.nobody
          else (ti, ps)
        pmap_tlb_asid_alloc r0.1 r0.2 pm
    let ti1 := r1.1
    let ps1 := r1.2
    let a := ti1.asid_of pm
    let ps2 := if ti1.mp then
        { ps1 with pm_onproc := upd ps1.pm_onproc pm (insert c (ps1.pm_onproc pm)) }
      else ps1
    ({ ti1 with hw := ti1.hw ++ [HwOp.setAsid a] },
     { ps2 with cur_asid := upd ps2.cur_asid c a })

/-- pmap_tlb_shootdown_process, running on a CPU of context `ti`: execute
the merged pending operation (invalidate the single victim's entries if it
is still onproc, otherwise reset its binding if it still has an ASID;
reinitialize with TLBINV_ALLUSER or TLBINV_ALL scope; invalidate globals;
or, for TLBINV_NOBODY, nothing - a spurious invocation), then clear the
victim slot and the pending operation before releasing the lock.  The
source dereferences ti_victim in the TLBINV_ONE arm; a TLBINV_ONE state
with an empty victim slot never arises and is modelled as doing nothing. -/
def pmap_tlb_shootdown_process (resident : Finset Nat) (ti : Ctx) (ps : Sys) :
    Ctx × Sys :=
  let r : Ctx × Sys :=
    match ti.invop, ti.victim with
    | TlbInvOp.one, some v =>
      if pmap_tlb_intersecting_onproc_p v ti ps then
        ({ ti with hw := ti.hw ++ [HwOp.invAsids (ti.asid_of v) (ti.asid_of v)] }, ps)
      else if ti.asid_of v ≠ 0 then pmap_tlb_pai_reset ti ps v
      else (ti, ps)
    | TlbInvOp.one, none => (ti, ps)
    | TlbInvOp.alluser, _ => pmap_tlb_asid_reinit resident ti ps TlbInvOp.alluser
    | TlbInvOp.allkernel, _ => ({ ti with hw := ti.hw ++ [HwOp.invGlobals] }, ps)
    | TlbInvOp.all, _ => pmap_tlb_asid_reinit resident ti ps TlbInvOp.all
    | TlbInvOp.nobody, _ => (ti, ps)
  ({ r.1 with victim := none, invop := TlbInvOp.nobody }, r.2)

/-- kcpuset_ffs_intersecting: 1 + the lowest CPU index in the
intersection, or 0 when the intersection is empty. -/
def kcpuset_ffs_intersecting (s t : Finset Nat) : Nat :=
  if h : (s ∩ t).Nonempty then (s ∩ t).min' h + 1 else 0

/-- The per-context body of the bystanders loop, entered when the local
copy of pm_active intersects the context's CPU set: if the pmap is onproc
on one of the context's CPUs, merge the request into the pending
operation/victim pair and name the lowest such CPU as IPI target;
otherwise, reset the binding when the pmap is (no longer) active for this
context; no IPI is sent. -/
def bystandersVisit (kernel_p : Bool) (pm : Nat) (ti : Ctx) (ps : Sys) :
    Ctx × Sys × Option Nat :=
  let j := kcpuset_ffs_intersecting (ps.pm_onproc pm) ti.kcpuset
  if j > 0 then
    let m := sdMerge (if kernel_p then SdReq.kern else SdReq.user pm) ti.invop ti.victim
    ({ ti with invop := m.1, victim := m.2 }, ps, some (j - 1))
  else if ¬pmap_tlb_intersecting_active_p pm ti ps then
    let r := pmap_tlb_pai_reset ti ps pm
    (r.1, r.2, none)
  else (ti, ps, none)

/-- The loop of pmap_tlb_shootdown_bystanders over the TLB contexts,
threading the local copy `act` of pm_active (from which each visited
context's CPU set is removed) and collecting the IPI targets in order.
The loop exits as soon as the local copy is empty and skips contexts whose
CPU sets it does not intersect. -/
def bystandersLoop (kernel_p : Bool) (pm : Nat) :
    List Ctx → Finset Nat → Sys → List Ctx × Sys × List Nat
  | [], _, ps => ([], ps, [])
  | ti :: rest, act, ps =>
    if act = ∅ then (ti :: rest, ps, [])
    else if act ∩ ti.kcpuset = ∅ then
      let r := bystandersLoop kernel_p pm rest act ps
      (ti :: r.1, r.2.1, r.2.2)
    else
      let act1 := act \ ti.kcpuset
      let v := bystandersVisit kernel_p pm ti ps
      let r := bystandersLoop kernel_p pm rest act1 v.2.1
      (v.1 :: r.1, r.2.1, v.2.2.toList ++ r.2.2)

/-- pmap_tlb_shootdown_bystanders: starting from a local copy of the
pmap's pm_active set with the calling CPU's own context removed
(`curKc`), walk the TLB contexts, merging a pending request and sending
one IPI per context on which the pmap is onproc, or resetting the binding
locally.  Returns the updated contexts, the system state, the IPI targets
in order, and whether any IPI was sent (the function's return value). -/
def pmap_tlb_shootdown_bystanders (pm : Nat) (curKc : Finset Nat)
    (tlbs : List Ctx) (ps : Sys) : List Ctx × Sys × List Nat × Bool :=
  let act := ps.pm_active pm \ curKc
  let r := bystandersLoop (pm = kernelPmap) pm tlbs act ps
  (r.1, r.2.1, r.2.2, !r.2.2.isEmpty)

/-- The body of pmap_tlb_asid_release_all for one context: if the binding
holds a valid ASID, clear the victim slot when it names this pmap, then
reset the binding. -/
def releaseOne (pm : Nat) (ti : Ctx) (ps : Sys) : Ctx × Sys :=
  if PMAP_PAI_ASIDVALID_P ti pm then
    let ti1 := if ti.victim = some pm then { ti with victim := none } else ti
    pmap_tlb_pai_reset ti1 ps pm
  else (ti, ps)

/-- The loop of pmap_tlb_asid_release_all over the TLB contexts
(multiprocessor, PMAP_TLB_MAX > 1): before each iteration the loop checks
whether the pmap still has any pm_active bit and exits when it does not. -/
def releaseLoop (pm : Nat) : List Ctx → Sys → List Ctx × Sys
  | [], ps => ([], ps)
  | ti :: rest, ps =>
    if ps.pm_active pm = ∅ then (ti :: rest, ps)
    else
      let r1 := releaseOne pm ti ps
      let r2 := releaseLoop pm rest r1.2
      (r1.1 :: r2.1, r2.2)

/-- pmap_tlb_asid_release_all for a pmap being destroyed. -/
def pmap_tlb_asid_release_all (pm : Nat) (tlbs : List Ctx) (ps : Sys) :
    List Ctx × Sys :=
  releaseLoop pm tlbs ps

/-- Number of in-use ASIDs above the reserved prefix and within the
namespace bound (the set bits of the bitmap beyond KERNEL_PID, up to
asid_max). -/
def usedBeyondReserved (ti : Ctx) : Nat :=
  (ti.bitmap.filter (fun a => ti.kernel_pid < a ∧ a ≤ ti.asid_max)).card

/-- The free-count conservation invariant: the free count plus the in-use
ASIDs beyond the reserved prefix equals asid_max minus the reserved count
KERNEL_PID (equivalently, ti_asids_free ==
ti_asid_max - "set bits in 1..asid_max", the form checked by the
DIAGNOSTIC code in the source, since the reserved ASIDs 1..KERNEL_PID are
always set). -/
def conservation (ti : Ctx) : Prop :=
  ti.free + usedBeyondReserved ti = ti.asid_max - ti.kernel_pid

instance (ti : Ctx) : Decidable (conservation ti) := by
  unfold conservation
  infer_instance

/-- A trace step for the allocate/reclaim no-reuse property: either an
allocation for a pmap or a reclamation of a pmap's binding. -/
inductive FreeOp where
  | alloc (pm : Nat)
  | reset (pm : Nat)
deriving DecidableEq, Repr

/-- Run a sequence of allocate/reclaim steps against one context,
collecting the ASIDs handed out by the allocations. -/
def runFreeOps : List FreeOp → Ctx → Sys → Ctx × Sys × List Nat
  | [], ti, ps => (ti, ps, [])
  | FreeOp.alloc pm :: rest, ti, ps =>
    let r1 := pmap_tlb_asid_alloc ti ps pm
    let r2 := runFreeOps rest r1.1 r1.2
    (r2.1, r2.2.1, r1.1.asid_of pm :: r2.2.2)
  | FreeOp.reset pm :: rest, ti, ps =>
    let r1 := pmap_tlb_pai_reset ti ps pm
    runFreeOps rest r1.1 r1.2

/-- The lowest non-reserved ASID not held by any binding of a pmap that is
onproc on one of this context's CPUs ("still current"), searched from
`i` with the given fuel. -/
def lowestNotOnprocHeldAux (ti : Ctx) (ps : Sys) : Nat → Nat → Nat
  | 0, i => i
  | fuel + 1, i =>
    if ti.pais.any (fun pm =>
        decide (pmap_tlb_intersecting_onproc_p pm ti ps) && (ti.asid_of pm = i)) then
      lowestNotOnprocHeldAux ti ps fuel (i + 1)
    else i

/-- The lowest ASID (above the reserved prefix) not held by a still-current
address space of this context. -/
def lowestNotOnprocHeld (ti : Ctx) (ps : Sys) : Nat :=
  lowestNotOnprocHeldAux ti ps (ti.pais.length + 1) (ti.kernel_pid + 1)

/-- The user merge table sends TLBINV_NOBODY to TLBINV_ONE. -/
theorem userMap_nobody : userMap TlbInvOp.nobody = TlbInvOp.one := by decide

/-- The user merge table sends TLBINV_ONE to TLBINV_ALLUSER. -/
theorem userMap_one : userMap TlbInvOp.one = TlbInvOp.alluser := by decide

/-- The user merge table fixes TLBINV_ALLUSER. -/
theorem userMap_alluser : userMap TlbInvOp.alluser = TlbInvOp.alluser := by decide

/-- The user merge table sends TLBINV_ALLKERNEL to TLBINV_ALL. -/
theorem userMap_allkernel : userMap TlbInvOp.allkernel = TlbInvOp.all := by decide

/-- The user merge table fixes TLBINV_ALL. -/
theorem userMap_all : userMap TlbInvOp.all = TlbInvOp.all := by decide

/-- The kernel merge table sends TLBINV_NOBODY to TLBINV_ALLKERNEL. -/
theorem kernelMap_nobody : kernelMap TlbInvOp.nobody = TlbInvOp.allkernel := by decide

/-- The kernel merge table sends TLBINV_ONE to TLBINV_ALL. -/
theorem kernelMap_one : kernelMap TlbInvOp.one = TlbInvOp.all := by decide

/-- The kernel merge table sends TLBINV_ALLUSER to TLBINV_ALL. -/
theorem kernelMap_alluser : kernelMap TlbInvOp.alluser = TlbInvOp.all := by decide

/-- The kernel merge table fixes TLBINV_ALLKERNEL. -/
theorem kernelMap_allkernel : kernelMap TlbInvOp.allkernel = TlbInvOp.allkernel := by
  decide

/-- The kernel merge table fixes TLBINV_ALL. -/
theorem kernelMap_all : kernelMap TlbInvOp.all = TlbInvOp.all := by decide

/-- C1: merging a shootdown request into a context's pending
(operation, victim) pair yields exactly the least upper bound of the
pending scope and the request's scope in the lattice
none < one < all-non-kernel < all-kernel < all (with all subsuming both
the user and the kernel scopes); the merge never decreases the pending
scope; and merging a single-target user request while a single-target
request for a different address space is pending yields the all-non-kernel
state with no victim recorded. -/
theorem pmap_tlb_sdMerge_lub (req : SdReq) (op : TlbInvOp) (victim : Option Nat)
    (hwf : op = TlbInvOp.one ↔ victim ≠ none) :
    sdScope (sdMerge req op victim).1 (sdMerge req op victim).2
      = Scope.join (sdScope op victim) (reqScope req) ∧
    Scope.sle (sdScope op victim)
      (sdScope (sdMerge req op victim).1 (sdMerge req op victim).2) = true ∧
    ∀ p q : Nat, p ≠ q →
      sdMerge (SdReq.user p) TlbInvOp.one (some q) = (TlbInvOp.alluser, none) := by
  have h4 : ∀ p q : Nat, p ≠ q →
      sdMerge (SdReq.user p) TlbInvOp.one (some q) = (TlbInvOp.alluser, none) := by
    intro p q hpq
    have hne : ¬(some q = some (α := Nat) p) := by
      simpa using fun h => hpq h.symm
    simp [sdMerge, hne, userMap_one]
  have hnone : op ≠ TlbInvOp.one → victim = none := fun h => by
    cases victim with
    | none => rfl
    | some v => exact absurd (hwf.mpr (by simp)) h
  refine ⟨?_, ?_, h4⟩
  all_goals
    cases req with
    | kern =>
      cases op with
      | one =>
        have hs := hwf.mp rfl
        cases victim with
        | none => exact absurd rfl hs
        | some v =>
          simp [sdMerge, sdScope, reqScope, Scope.join, Scope.sle, kernelMap_one]
      | nobody =>
        rw [hnone (by simp)]
        simp [sdMerge, sdScope, reqScope, Scope.join, Scope.sle, kernelMap_nobody]
      | alluser =>
        rw [hnone (by simp)]
        simp [sdMerge, sdScope, reqScope, Scope.join, Scope.sle, kernelMap_alluser]
      | allkernel =>
        rw [hnone (by simp)]
        simp [sdMerge, sdScope, reqScope, Scope.join, Scope.sle, kernelMap_allkernel]
      | all =>
        rw [hnone (by simp)]
        simp [sdMerge, sdScope, reqScope, Scope.join, Scope.sle, kernelMap_all]
    | user pm =>
      cases op with
      | one =>
        have hs := hwf.mp rfl
        cases victim with
        | none => exact absurd rfl hs
        | some v =>
          by_cases hv : v = pm
          · subst hv
            simp [sdMerge, sdScope, reqScope, Scope.join, Scope.sle]
          · have hne : ¬(some v = some (α := Nat) pm) := by simpa using hv
            simp [sdMerge, sdScope, reqScope, Scope.join, Scope.sle, hne, hv,
              userMap_one]
      | nobody =>
        rw [hnone (by simp)]
        simp [sdMerge, sdScope, reqScope, Scope.join, Scope.sle, userMap_nobody]
      | alluser =>
        rw [hnone (by simp)]
        simp [sdMerge, sdScope, reqScope, Scope.join, Scope.sle, userMap_alluser]
      | allkernel =>
        rw [hnone (by simp)]
        simp [sdMerge, sdScope, reqScope, Scope.join, Scope.sle, userMap_allkernel]
      | all =>
        rw [hnone (by simp)]
        simp [sdMerge, sdScope, reqScope, Scope.join, Scope.sle, userMap_all]

/-- Witness for C1 at a concrete input: a user request for address space 3
merged into a pending single-target operation naming address space 5. -/
theorem pmap_tlb_sdMerge_lub_witness :
    sdScope (sdMerge (SdReq.user 3) TlbInvOp.one (some 5)).1
        (sdMerge (SdReq.user 3) TlbInvOp.one (some 5)).2
      = Scope.join (sdScope TlbInvOp.one (some 5)) (reqScope (SdReq.user 3)) ∧
    sdMerge (SdReq.user 3) TlbInvOp.one (some 5) = (TlbInvOp.alluser, none) :=
  ⟨(pmap_tlb_sdMerge_lub (SdReq.user 3) TlbInvOp.one (some 5) (by decide)).1,
   (pmap_tlb_sdMerge_lub (SdReq.user 3) TlbInvOp.one (some 5) (by decide)).2.2
     3 5 (by decide)⟩

/-- A concrete quiescent TLB context used by witnesses: fresh namespace
with asid_max 31, no reserved range beyond ASID 0, no pending shootdown. -/
def ctx0 : Ctx :=
  { kernel_pid := 0
    flush_on_reset := false
    mp := true
    asid_max := 31
    hint := 1
    free := 31
    bitmap := {0}
    pais := []
    asid_of := fun _ => 0
    invop := TlbInvOp.nobody
    victim := none
    kcpuset := {0, 1}
    hw := [] }

/-- A concrete system state used by witnesses: no pmap active or onproc
anywhere. -/
def sys0 : Sys :=
  { pm_active := fun _ => ∅
    pm_onproc := fun _ => ∅
    cur_asid := fun _ => 0 }

/-- C6: for every starting state, pmap_tlb_shootdown_process leaves the
pending operation at TLBINV_NOBODY and the victim slot empty before
releasing the lock; and a spurious invocation - pending operation
TLBINV_NOBODY (and, as in every reachable such state, no victim) -
changes no state at all. -/
theorem pmap_tlb_shootdown_process_clears (resident : Finset Nat) (ti : Ctx)
    (ps : Sys) :
    ((pmap_tlb_shootdown_process resident ti ps).1.invop = TlbInvOp.nobody ∧
     (pmap_tlb_shootdown_process resident ti ps).1.victim = none) ∧
    (ti.invop = TlbInvOp.nobody → ti.victim = none →
      pmap_tlb_shootdown_process resident ti ps = (ti, ps)) := by
  constructor
  · exact ⟨rfl, rfl⟩
  · intro h1 h2
    cases ti with
    | mk kp fr mp amax hint free bm pais aof invop victim kc hw =>
      simp only [Ctx.invop] at h1
      simp only [Ctx.victim] at h2
      subst h1
      subst h2
      rfl

/-- Witness for C6: a spurious process invocation on a concrete quiescent
context changes nothing. -/
theorem pmap_tlb_shootdown_process_clears_witness :
    pmap_tlb_shootdown_process ∅ ctx0 sys0 = (ctx0, sys0) :=
  (pmap_tlb_shootdown_process_clears ∅ ctx0 sys0).2 rfl rfl

/-- Every index from the start of the scan up to (but excluding) the
search result is in the in-use set. -/
theorem firstClearAux_mem (s : Finset Nat) :
    ∀ fuel i j, i ≤ j → j < firstClearAux s fuel i → j ∈ s := by
  intro fuel
  induction fuel with
  | zero =>
    intro i j hij hj
    simp [firstClearAux] at hj
    omega
  | succ n ih =>
    intro i j hij hj
    by_cases hi : i ∈ s
    · simp only [firstClearAux, if_pos hi] at hj
      rcases Nat.eq_or_lt_of_le hij with rfl | hlt
      · exact hi
      · exact ih (i + 1) j hlt hj
    · simp only [firstClearAux, if_neg hi] at hj
      omega

/-- Either the scan result lies outside the in-use set, or the fuel ran
out with the whole scanned interval inside the set. -/
theorem firstClearAux_spec (s : Finset Nat) :
    ∀ fuel i, firstClearAux s fuel i ∉ s ∨
      (firstClearAux s fuel i = i + fuel ∧ ∀ k, i ≤ k → k < i + fuel → k ∈ s) := by
  intro fuel
  induction fuel with
  | zero =>
    intro i
    right
    exact ⟨by simp [firstClearAux], by omega⟩
  | succ n ih =>
    intro i
    by_cases hi : i ∈ s
    · have hstep : firstClearAux s (n + 1) i = firstClearAux s n (i + 1) := by
        simp [firstClearAux, hi]
      rcases ih (i + 1) with h | ⟨he, hall⟩
      · left
        rw [hstep]
        exact h
      · right
        refine ⟨by rw [hstep, he]; omega, ?_⟩
        intro k hk1 hk2
        rcases Nat.eq_or_lt_of_le hk1 with rfl | h
        · exact hi
        · exact hall k h (by omega)
    · left
      simp [firstClearAux, hi]

/-- The first clear bit really is clear: with fuel card + 1 the scan
cannot run out (pigeonhole). -/
theorem firstClearBit_not_mem (s : Finset Nat) : firstClearBit s ∉ s := by
  rcases firstClearAux_spec s (s.card + 1) 0 with h | ⟨-, hall⟩
  · exact h
  · exfalso
    have hsub : Finset.range (s.card + 1) ⊆ s := by
      intro k hk
      have := Finset.mem_range.mp hk
      exact hall k (Nat.zero_le k) (by omega)
    have hcard := Finset.card_le_card hsub
    rw [Finset.card_range] at hcard
    omega

/-- Everything below the first clear bit is in the in-use set. -/
theorem firstClearBit_min (s : Finset Nat) : ∀ j < firstClearBit s, j ∈ s :=
  fun j hj => firstClearAux_mem s (s.card + 1) 0 j (Nat.zero_le j) hj

/-- The ASID chosen by the allocator is never one already in use. -/
theorem allocChosen_not_mem (ti : Ctx) : allocChosen ti ∉ ti.bitmap := by
  unfold allocChosen
  by_cases h : allocHint ti ∈ ti.bitmap
  · simpa [h] using firstClearBit_not_mem ti.bitmap
  · simp [h]

/-- C4: under the allocation preconditions (hint within the namespace,
every ASID below the hint in use - the steady state of the increasing
allocation order, hint past the reserved prefix, the free-count
conservation equation, and a positive free count), pmap_tlb_asid_alloc
returns the lowest free ASID at or after the current hint, never past
asid_max and never in the reserved prefix; it marks that ASID used, links
the binding into the active list, decrements the free count by one,
advances the hint past the returned ASID, and marks the address space
active on every CPU the context serves. -/
theorem pmap_tlb_asid_alloc_correct (ti : Ctx) (ps : Sys) (pm : Nat)
    (h_hint_le : ti.hint ≤ ti.asid_max)
    (h_below : ∀ j < ti.hint, j ∈ ti.bitmap)
    (h_kp : ti.kernel_pid < ti.hint)
    (h_cons : conservation ti)
    (h_free : 0 < ti.free) :
    allocChosen ti ∉ ti.bitmap ∧
    ti.hint ≤ allocChosen ti ∧
    (∀ b, b ∉ ti.bitmap → ti.hint ≤ b → allocChosen ti ≤ b) ∧
    ti.kernel_pid < allocChosen ti ∧
    allocChosen ti ≤ ti.asid_max ∧
    (pmap_tlb_asid_alloc ti ps pm).1.asid_of pm = allocChosen ti ∧
    (pmap_tlb_asid_alloc ti ps pm).1.bitmap = insert (allocChosen ti) ti.bitmap ∧
    (pmap_tlb_asid_alloc ti ps pm).1.pais = pm :: ti.pais ∧
    (pmap_tlb_asid_alloc ti ps pm).1.free = ti.free - 1 ∧
    (pmap_tlb_asid_alloc ti ps pm).1.hint = allocChosen ti + 1 ∧
    (ti.mp = true →
      (pmap_tlb_asid_alloc ti ps pm).2.pm_active pm
        = ps.pm_active pm ∪ ti.kcpuset) := by
  have hhint : allocHint ti = ti.hint := by
    unfold allocHint
    have hno : ¬(ti.flush_on_reset = true ∧ ti.hint > ti.asid_max) := by
      rintro ⟨-, h⟩
      omega
    simp only [Bool.coe_iff_coe] at hno ⊢
    split
    · rename_i hcond
      exact absurd ⟨hcond.1, hcond.2⟩ hno
    · rfl
  have hex : ∃ c, c ∉ ti.bitmap ∧ c ≤ ti.asid_max := by
    by_contra hc
    push_neg at hc
    have hsub : Finset.Ioc ti.kernel_pid ti.asid_max ⊆
        ti.bitmap.filter (fun a => ti.kernel_pid < a ∧ a ≤ ti.asid_max) := by
      intro c hcm
      rw [Finset.mem_Ioc] at hcm
      by_cases hcb : c ∈ ti.bitmap
      · exact Finset.mem_filter.mpr ⟨hcb, hcm.1, hcm.2⟩
      · exact absurd hcm.2 (by have := hc c hcb; omega)
    have hcard := Finset.card_le_card hsub
    rw [Nat.card_Ioc] at hcard
    unfold conservation usedBeyondReserved at h_cons
    omega
  have hchosen : allocChosen ti ∉ ti.bitmap ∧ ti.hint ≤ allocChosen ti ∧
      (∀ b, b ∉ ti.bitmap → ti.hint ≤ b → allocChosen ti ≤ b) ∧
      allocChosen ti ≤ ti.asid_max := by
    unfold allocChosen
    rw [hhint]
    by_cases hh : ti.hint ∈ ti.bitmap
    · simp only [if_pos hh]
      obtain ⟨c, hc1, hc2⟩ := hex
      have hmin := firstClearBit_min ti.bitmap
      have hnm := firstClearBit_not_mem ti.bitmap
      have hge : ti.hint ≤ firstClearBit ti.bitmap := by
        by_contra h
        push_neg at h
        exact hnm (h_below _ h)
      have hle : ∀ b, b ∉ ti.bitmap → firstClearBit ti.bitmap ≤ b := by
        intro b hb
        by_contra h
        push_neg at h
        exact hb (hmin b h)
      exact ⟨hnm, hge, fun b hb _ => hle b hb, le_trans (hle c hc1) hc2⟩
    · simp only [if_neg hh]
      exact ⟨hh, le_refl _, fun b _ hbb => hbb, h_hint_le⟩
  refine ⟨hchosen.1, hchosen.2.1, hchosen.2.2.1,
    lt_of_lt_of_le h_kp hchosen.2.1, hchosen.2.2.2, ?_, rfl, rfl, rfl, rfl, ?_⟩
  · simp [pmap_tlb_asid_alloc, upd]
  · intro hmp
    simp [pmap_tlb_asid_alloc, hmp, upd]

/-- Witness for C4: allocation on a concrete fresh context (asid_max 31,
KERNEL_PID 0, empty active list, hint 1) for address space 7. -/
theorem pmap_tlb_asid_alloc_correct_witness :
    allocChosen ctx0 ∉ ctx0.bitmap ∧
    ctx0.hint ≤ allocChosen ctx0 ∧
    (∀ b, b ∉ ctx0.bitmap → ctx0.hint ≤ b → allocChosen ctx0 ≤ b) ∧
    ctx0.kernel_pid < allocChosen ctx0 ∧
    allocChosen ctx0 ≤ ctx0.asid_max ∧
    (pmap_tlb_asid_alloc ctx0 sys0 7).1.asid_of 7 = allocChosen ctx0 ∧
    (pmap_tlb_asid_alloc ctx0 sys0 7).1.bitmap = insert (allocChosen ctx0) ctx0.bitmap ∧
    (pmap_tlb_asid_alloc ctx0 sys0 7).1.pais = 7 :: ctx0.pais ∧
    (pmap_tlb_asid_alloc ctx0 sys0 7).1.free = ctx0.free - 1 ∧
    (pmap_tlb_asid_alloc ctx0 sys0 7).1.hint = allocChosen ctx0 + 1 ∧
    (ctx0.mp = true →
      (pmap_tlb_asid_alloc ctx0 sys0 7).2.pm_active 7
        = sys0.pm_active 7 ∪ ctx0.kcpuset) :=
  pmap_tlb_asid_alloc_correct ctx0 sys0 7 (by decide) (by decide) (by decide)
    (by decide) (by decide)

/-- Fields of the context that pmap_tlb_pai_reset never touches, and the
two fields it always rewrites (active list and binding ASID). -/
theorem pai_reset_frame (ti : Ctx) (ps : Sys) (pm : Nat) :
    (pmap_tlb_pai_reset ti ps pm).1.kernel_pid = ti.kernel_pid ∧
    (pmap_tlb_pai_reset ti ps pm).1.asid_max = ti.asid_max ∧
    (pmap_tlb_pai_reset ti ps pm).1.hint = ti.hint ∧
    (pmap_tlb_pai_reset ti ps pm).1.flush_on_reset = ti.flush_on_reset ∧
    (pmap_tlb_pai_reset ti ps pm).1.mp = ti.mp ∧
    (pmap_tlb_pai_reset ti ps pm).1.invop = ti.invop ∧
    (pmap_tlb_pai_reset ti ps pm).1.victim = ti.victim ∧
    (pmap_tlb_pai_reset ti ps pm).1.kcpuset = ti.kcpuset ∧
    (pmap_tlb_pai_reset ti ps pm).1.asid_of = upd ti.asid_of pm 0 ∧
    (pmap_tlb_pai_reset ti ps pm).1.pais = ti.pais.erase pm ∧
    (pmap_tlb_pai_reset ti ps pm).2.pm_onproc = ps.pm_onproc ∧
    (pmap_tlb_pai_reset ti ps pm).2.cur_asid = ps.cur_asid := by
  refine ⟨rfl, rfl, rfl, rfl, rfl, rfl, rfl, rfl, rfl, rfl, ?_, ?_⟩ <;>
    · unfold pmap_tlb_pai_reset
      by_cases hm : ti.mp = true <;> simp [hm]

/-- When the reclaimed binding's ASID is not even marked in the bitmap,
pmap_tlb_pai_reset leaves the bitmap and free count alone. -/
theorem pai_reset_nomem_frame (ti : Ctx) (ps : Sys) (pm : Nat)
    (h : ti.asid_of pm ∉ ti.bitmap) :
    (pmap_tlb_pai_reset ti ps pm).1.bitmap = ti.bitmap ∧
    (pmap_tlb_pai_reset ti ps pm).1.free = ti.free := by
  have hc : ¬(ti.flush_on_reset = true ∧ ti.asid_of pm ∈ ti.bitmap) := by
    rintro ⟨-, hmem⟩
    exact h hmem
  unfold pmap_tlb_pai_reset
  constructor <;> simp [hc]

/-- On configurations that do not flush ASIDs on reset,
pmap_tlb_pai_reset never touches the bitmap, the free count or the
hardware. -/
theorem pai_reset_noflush_frame (ti : Ctx) (ps : Sys) (pm : Nat)
    (h : ti.flush_on_reset = false) :
    (pmap_tlb_pai_reset ti ps pm).1.bitmap = ti.bitmap ∧
    (pmap_tlb_pai_reset ti ps pm).1.free = ti.free ∧
    (pmap_tlb_pai_reset ti ps pm).1.hw = ti.hw := by
  unfold pmap_tlb_pai_reset
  refine ⟨?_, ?_, ?_⟩ <;> simp [h]

/-- pmap_tlb_pai_reset preserves the free-count conservation equation,
provided the reclaimed ASID lies in the allocatable range (a standing
KASSERT of the source). -/
theorem pai_reset_conservation (ti : Ctx) (ps : Sys) (pm : Nat)
    (h_cons : conservation ti)
    (h_lo : ti.kernel_pid < ti.asid_of pm) (h_hi : ti.asid_of pm ≤ ti.asid_max) :
    conservation (pmap_tlb_pai_reset ti ps pm).1 := by
  by_cases hc : ti.flush_on_reset = true ∧ ti.asid_of pm ∈ ti.bitmap
  · unfold conservation usedBeyondReserved at h_cons ⊢
    unfold pmap_tlb_pai_reset
    simp only [hc, and_self, if_pos, Ctx.free, Ctx.bitmap, Ctx.kernel_pid, Ctx.asid_max]
    have hpred : ti.kernel_pid < ti.asid_of pm ∧ ti.asid_of pm ≤ ti.asid_max :=
      ⟨h_lo, h_hi⟩
    have hmemf : ti.asid_of pm ∈
        ti.bitmap.filter (fun a => ti.kernel_pid < a ∧ a ≤ ti.asid_max) :=
      Finset.mem_filter.mpr ⟨hc.2, hpred⟩
    rw [Finset.filter_erase, Finset.card_erase_of_mem hmemf]
    have hpos : 0 < (ti.bitmap.filter
        (fun a => ti.kernel_pid < a ∧ a ≤ ti.asid_max)).card :=
      Finset.card_pos.mpr ⟨ti.asid_of pm, hmemf⟩
    omega
  · unfold conservation usedBeyondReserved at h_cons ⊢
    unfold pmap_tlb_pai_reset
    simp only [hc, if_neg, Ctx.free, Ctx.bitmap, Ctx.kernel_pid, Ctx.asid_max,
      if_false]
    exact h_cons

/-- The bitmap beyond the reserved prefix gains one ASID when a free ASID
in the allocatable range is inserted, so an in-range insertion paired with
a free-count decrement preserves conservation; moreover conservation plus
a free in-range ASID forces a positive free count. -/
theorem used_lt_of_not_mem (ti : Ctx) (a : Nat) (ha : a ∉ ti.bitmap)
    (h_lo : ti.kernel_pid < a) (h_hi : a ≤ ti.asid_max) :
    usedBeyondReserved ti < ti.asid_max - ti.kernel_pid := by
  unfold usedBeyondReserved
  have hsub : ti.bitmap.filter (fun x => ti.kernel_pid < x ∧ x ≤ ti.asid_max) ⊂
      Finset.Ioc ti.kernel_pid ti.asid_max := by
    rw [Finset.ssubset_def]
    constructor
    · intro x hx
      rw [Finset.mem_filter] at hx
      rw [Finset.mem_Ioc]
      exact hx.2
    · intro hsup
      have hma := hsup (Finset.mem_Ioc.mpr ⟨h_lo, h_hi⟩)
      rw [Finset.mem_filter] at hma
      exact ha hma.1
  have := Finset.card_lt_card hsub
  rwa [Nat.card_Ioc] at this

/-- The walk at the end of reinitialization preserves the free-count
conservation equation, provided the walked bindings carry in-range ASIDs
and appear at most once. -/
theorem reinitWalk_conservation :
    ∀ (l : List Nat) (ti : Ctx) (ps : Sys),
      conservation ti →
      (∀ pm ∈ l, ti.kernel_pid < ti.asid_of pm ∧ ti.asid_of pm ≤ ti.asid_max) →
      l.Nodup →
      conservation (reinitWalk l ti ps).1 := by
  intro l
  induction l with
  | nil =>
    intro ti ps h _ _
    simpa [reinitWalk] using h
  | cons pm rest ih =>
    intro ti ps hcons hall hnd
    have hpm := hall pm (List.mem_cons_self pm rest)
    have hrest : ∀ q ∈ rest, ti.kernel_pid < ti.asid_of q ∧ ti.asid_of q ≤ ti.asid_max :=
      fun q hq => hall q (List.mem_cons_of_mem pm hq)
    have hnd2 : rest.Nodup := (List.nodup_cons.mp hnd).2
    have hpmnotin : pm ∉ rest := (List.nodup_cons.mp hnd).1
    rw [reinitWalk]
    split_ifs with h1 h2 h3
    · exact ih ti ps hcons hrest hnd2
    · -- onproc, ASID not yet marked: re-mark it and charge the free count
      set ti2 : Ctx := { ti with bitmap := insert (ti.asid_of pm) ti.bitmap, free := ti.free - 1 } with hti2
      have hfree : 0 < ti.free := by
        have := used_lt_of_not_mem ti (ti.asid_of pm) h2 hpm.1 hpm.2
        unfold conservation at hcons
        omega
      have hcons2 : conservation ti2 := by
        unfold conservation usedBeyondReserved at hcons ⊢
        rw [hti2]
        simp only [Ctx.free, Ctx.bitmap, Ctx.kernel_pid, Ctx.asid_max]
        rw [Finset.filter_insert, if_pos ⟨hpm.1, hpm.2⟩,
          Finset.card_insert_of_not_mem (fun hmem => h2 (Finset.mem_filter.mp hmem).1)]
        omega
      exact ih ti2 ps hcons2 (fun q hq => hrest q hq) hnd2
    · exact ih ti ps hcons hrest hnd2
    · -- reclaim through pai_reset: the ASID is unmarked, so the bitmap and
      -- free count are untouched and only the binding changes
      have hfr := pai_reset_frame ti ps pm
      have hnm := pai_reset_nomem_frame ti ps pm h3
      show conservation (reinitWalk rest (pmap_tlb_pai_reset ti ps pm).1
        (pmap_tlb_pai_reset ti ps pm).2).1
      refine ih _ _ ?_ ?_ ?_
      · unfold conservation usedBeyondReserved at hcons ⊢
        rw [hnm.1, hnm.2, hfr.1, hfr.2.1]
        exact hcons
      · intro q hq
        rw [hfr.1, hfr.2.1, hfr.2.2.2.2.2.2.2.2.1]
        have hqne : q ≠ pm := fun he => hpmnotin (he ▸ hq)
        rw [upd]
        simp only [hqne, if_false]
        exact hrest q hq
      · exact hnd2

/-- Fields of the context that reinitPrep never touches, and the fields it
always resets. -/
theorem reinitPrep_frame (resident : Finset Nat) (ti : Ctx) (op : TlbInvOp) :
    (reinitPrep resident ti op).kernel_pid = ti.kernel_pid ∧
    (reinitPrep resident ti op).asid_max = ti.asid_max ∧
    (reinitPrep resident ti op).hint = ti.kernel_pid + 1 ∧
    (reinitPrep resident ti op).flush_on_reset = ti.flush_on_reset ∧
    (reinitPrep resident ti op).mp = ti.mp ∧
    (reinitPrep resident ti op).invop = ti.invop ∧
    (reinitPrep resident ti op).victim = ti.victim ∧
    (reinitPrep resident ti op).kcpuset = ti.kcpuset ∧
    (reinitPrep resident ti op).asid_of = ti.asid_of ∧
    (reinitPrep resident ti op).pais = ti.pais := by
  unfold reinitPrep
  cases op with
  | nobody =>
    simp only []
    split_ifs <;> exact ⟨rfl, rfl, rfl, rfl, rfl, rfl, rfl, rfl, rfl, rfl⟩
  | one => exact ⟨rfl, rfl, rfl, rfl, rfl, rfl, rfl, rfl, rfl, rfl⟩
  | alluser => exact ⟨rfl, rfl, rfl, rfl, rfl, rfl, rfl, rfl, rfl, rfl⟩
  | allkernel => exact ⟨rfl, rfl, rfl, rfl, rfl, rfl, rfl, rfl, rfl, rfl⟩
  | all => exact ⟨rfl, rfl, rfl, rfl, rfl, rfl, rfl, rfl, rfl, rfl⟩

/-- The reserved prefix contributes nothing to the count of in-use ASIDs
beyond the reserved prefix. -/
theorem filter_reset_empty (kp maxv : Nat) :
    (TLBINFO_ASID_RESET_SET kp).filter (fun a => kp < a ∧ a ≤ maxv) = ∅ := by
  apply Finset.filter_false_of_mem
  intro a ha
  rw [TLBINFO_ASID_RESET_SET, Finset.mem_range] at ha
  rintro ⟨h1, -⟩
  omega

/-- The state produced by reinitPrep satisfies the conservation equation
for every scope, provided the recorded resident ASIDs lie in the
allocatable range. -/
theorem reinitPrep_conservation (resident : Finset Nat) (ti : Ctx) (op : TlbInvOp)
    (h_res : resident ⊆ Finset.Ioc ti.kernel_pid ti.asid_max) :
    conservation (reinitPrep resident ti op) := by
  have hreset : ∀ hw1 : List HwOp, conservation { ti with
      free := TLBINFO_ASID_INITIAL_FREE ti.asid_max ti.kernel_pid
      hint := ti.kernel_pid + 1
      bitmap := TLBINFO_ASID_RESET_SET ti.kernel_pid
      hw := hw1 } := by
    intro hw1
    unfold conservation usedBeyondReserved TLBINFO_ASID_INITIAL_FREE
    simp only [Ctx.free, Ctx.bitmap, Ctx.kernel_pid, Ctx.asid_max]
    rw [filter_reset_empty]
    simp
    omega
  have hfound_le : resident.card ≤ ti.asid_max - ti.kernel_pid := by
    have := Finset.card_le_card h_res
    rwa [Nat.card_Ioc] at this
  have hres_filter :
      resident.filter (fun a => ti.kernel_pid < a ∧ a ≤ ti.asid_max) = resident := by
    apply Finset.filter_true_of_mem
    intro a ha
    exact Finset.mem_Ioc.mp (h_res ha)
  unfold reinitPrep
  cases op with
  | nobody =>
    simp only []
    split_ifs with hhalf
    · exact hreset _
    · unfold conservation usedBeyondReserved TLBINFO_ASID_INITIAL_FREE
      simp only [Ctx.free, Ctx.bitmap, Ctx.kernel_pid, Ctx.asid_max]
      rw [Finset.filter_union, filter_reset_empty, hres_filter]
      simp
      omega
  | all => exact hreset _
  | alluser => exact hreset _
  | one =>
    have := hreset ti.hw
    simpa using this
  | allkernel =>
    have := hreset ti.hw
    simpa using this

/-- C2: the free-count conservation equation - free count plus набор
in-use ASIDs beyond the reserved prefix equals asid_max minus the reserved
count - is preserved by allocation, by reclamation, and by
reinitialization (each under its standing preconditions from the source's
KASSERTs). -/
theorem pmap_tlb_conservation_preserved (ti : Ctx) (ps : Sys) (pm : Nat)
    (resident : Finset Nat) (op : TlbInvOp) :
    (conservation ti → ti.hint ≤ ti.asid_max → (∀ j < ti.hint, j ∈ ti.bitmap) →
      ti.kernel_pid < ti.hint → 0 < ti.free →
      conservation (pmap_tlb_asid_alloc ti ps pm).1) ∧
    (conservation ti → ti.kernel_pid < ti.asid_of pm → ti.asid_of pm ≤ ti.asid_max →
      conservation (pmap_tlb_pai_reset ti ps pm).1) ∧
    (resident ⊆ Finset.Ioc ti.kernel_pid ti.asid_max →
      (∀ q ∈ ti.pais, ti.kernel_pid < ti.asid_of q ∧ ti.asid_of q ≤ ti.asid_max) →
      ti.pais.Nodup →
      conservation (pmap_tlb_asid_reinit resident ti ps op).1) := by
  refine ⟨?_, ?_, ?_⟩
  · intro h_cons h_hint_le h_below h_kp h_free
    have h := pmap_tlb_asid_alloc_correct ti ps pm h_hint_le h_below h_kp h_cons h_free
    unfold conservation usedBeyondReserved at h_cons ⊢
    rw [h.2.2.2.2.2.2.1, h.2.2.2.2.2.2.2.2.1]
    have hkp : (pmap_tlb_asid_alloc ti ps pm).1.kernel_pid = ti.kernel_pid := rfl
    have hmax : (pmap_tlb_asid_alloc ti ps pm).1.asid_max = ti.asid_max := rfl
    rw [hkp, hmax]
    rw [Finset.filter_insert, if_pos ⟨h.2.2.2.1, h.2.2.2.2.1⟩,
      Finset.card_insert_of_not_mem (fun hmem => h.1 (Finset.mem_filter.mp hmem).1)]
    omega
  · intro h_cons h_lo h_hi
    exact pai_reset_conservation ti ps pm h_cons h_lo h_hi
  · intro h_res h_pais h_nd
    have hfr := reinitPrep_frame resident ti op
    apply reinitWalk_conservation
    · exact reinitPrep_conservation resident ti op h_res
    · intro q hq
      rw [hfr.1, hfr.2.1, hfr.2.2.2.2.2.2.2.2.1]
      exact h_pais q (by rwa [hfr.2.2.2.2.2.2.2.2.2] at hq)
    · rw [hfr.2.2.2.2.2.2.2.2.2]
      exact h_nd

/-- A concrete context in which address space 7 holds ASID 5: ASIDs 1..5
allocated, hint 6, 26 of 31 ASIDs free. -/
def ctx1 : Ctx :=
  { kernel_pid := 0
    flush_on_reset := false
    mp := true
    asid_max := 31
    hint := 6
    free := 26
    bitmap := {0, 1, 2, 3, 4, 5}
    pais := [7]
    asid_of := fun p => if p = 7 then 5 else 0
    invop := TlbInvOp.nobody
    victim := none
    kcpuset := {0, 1}
    hw := [] }

/-- Witness for C2: the conservation equation holds after allocation,
reclamation and reinitialization on a concrete fresh context. -/
theorem pmap_tlb_conservation_preserved_witness :
    conservation (pmap_tlb_asid_alloc ctx0 sys0 7).1 ∧
    conservation (pmap_tlb_pai_reset ctx1 sys0 7).1 ∧
    conservation (pmap_tlb_asid_reinit {1} ctx1 sys0 TlbInvOp.nobody).1 :=
  ⟨(pmap_tlb_conservation_preserved ctx0 sys0 7 ∅ TlbInvOp.nobody).1 (by decide)
      (by decide) (by decide) (by decide) (by decide),
   (pmap_tlb_conservation_preserved ctx1 sys0 7 ∅ TlbInvOp.nobody).2.1 (by decide)
      (by decide) (by decide),
   (pmap_tlb_conservation_preserved ctx1 sys0 7 {1} TlbInvOp.nobody).2.2
      (by decide) (by decide) (by decide)⟩

/-- Along any sequence of allocations and reclamations (no
reinitialization) on a configuration that does not flush ASIDs on reset,
an ASID marked in the bitmap stays marked and is never handed out by an
allocation. -/
theorem runFreeOps_no_reuse :
    ∀ (ops : List FreeOp) (ti : Ctx) (ps : Sys) (a : Nat),
      ti.flush_on_reset = false → a ∈ ti.bitmap →
      a ∈ (runFreeOps ops ti ps).1.bitmap ∧ a ∉ (runFreeOps ops ti ps).2.2 := by
  intro ops
  induction ops with
  | nil =>
    intro ti ps a hf ha
    exact ⟨by simpa [runFreeOps] using ha, by simp [runFreeOps]⟩
  | cons op rest ih =>
    intro ti ps a hf ha
    cases op with
    | alloc pm =>
      have h1 : (pmap_tlb_asid_alloc ti ps pm).1.flush_on_reset = ti.flush_on_reset :=
        rfl
      have h2 : a ∈ (pmap_tlb_asid_alloc ti ps pm).1.bitmap := by
        show a ∈ insert (allocChosen ti) ti.bitmap
        exact Finset.mem_insert_of_mem ha
      have hih := ih (pmap_tlb_asid_alloc ti ps pm).1 (pmap_tlb_asid_alloc ti ps pm).2
        a (by rw [h1]; exact hf) h2
      refine ⟨hih.1, ?_⟩
      intro hmem
      have hmem2 : a = (pmap_tlb_asid_alloc ti ps pm).1.asid_of pm ∨
          a ∈ (runFreeOps rest (pmap_tlb_asid_alloc ti ps pm).1
            (pmap_tlb_asid_alloc ti ps pm).2).2.2 := by
        simpa [runFreeOps] using hmem
      rcases hmem2 with he | hm
      · have hch : (pmap_tlb_asid_alloc ti ps pm).1.asid_of pm = allocChosen ti := by
          simp [pmap_tlb_asid_alloc, upd]
        rw [hch] at he
        exact allocChosen_not_mem ti (he ▸ ha)
      · exact hih.2 hm
    | reset pm =>
      have hb := (pai_reset_noflush_frame ti ps pm hf).1
      have h1 : (pmap_tlb_pai_reset ti ps pm).1.flush_on_reset = ti.flush_on_reset :=
        (pai_reset_frame ti ps pm).2.2.2.1
      have hih := ih (pmap_tlb_pai_reset ti ps pm).1 (pmap_tlb_pai_reset ti ps pm).2
        a (by rw [h1]; exact hf) (by rw [hb]; exact ha)
      exact ⟨by simpa [runFreeOps] using hih.1, by simpa [runFreeOps] using hih.2⟩

/-- C3: reclaiming a binding unlinks it and resets its ASID to 0 without
clearing the bitmap bit on configurations that do not flush on reset, so
any marked ASID - in particular one freed by reclaim - is never returned
by a subsequent allocation until a reinitialization pass clears the
bitmap; on flush-on-reset configurations, multiprocessor builds flush the
chosen ASID from the hardware at allocation time and uniprocessor builds
flush it at reclaim time. -/
theorem pmap_tlb_no_premature_reuse (ti : Ctx) (ps : Sys) (pm a : Nat)
    (ops : List FreeOp) :
    ((pmap_tlb_pai_reset ti ps pm).1.asid_of pm = 0) ∧
    (ti.pais.Nodup → pm ∉ (pmap_tlb_pai_reset ti ps pm).1.pais) ∧
    (ti.flush_on_reset = false → (pmap_tlb_pai_reset ti ps pm).1.bitmap = ti.bitmap) ∧
    (ti.flush_on_reset = false → a ∈ ti.bitmap →
      a ∈ (runFreeOps ops ti ps).1.bitmap ∧ a ∉ (runFreeOps ops ti ps).2.2) ∧
    (ti.mp = true → ti.flush_on_reset = true →
      HwOp.invAsids (allocChosen ti) (allocChosen ti)
        ∈ (pmap_tlb_asid_alloc ti ps pm).1.hw) ∧
    (ti.mp = false → ti.flush_on_reset = true →
      HwOp.invAsids (ti.asid_of pm) (ti.asid_of pm)
        ∈ (pmap_tlb_pai_reset ti ps pm).1.hw) := by
  refine ⟨?_, ?_, ?_, ?_, ?_, ?_⟩
  · rw [(pai_reset_frame ti ps pm).2.2.2.2.2.2.2.2.1]
    simp [upd]
  · intro hnd
    rw [(pai_reset_frame ti ps pm).2.2.2.2.2.2.2.2.2.1]
    intro hmem
    exact absurd ((hnd.mem_erase_iff).mp hmem).1 (by simp)
  · intro hf
    exact (pai_reset_noflush_frame ti ps pm hf).1
  · intro hf ha
    exact runFreeOps_no_reuse ops ti ps a hf ha
  · intro hmp hfl
    unfold pmap_tlb_asid_alloc
    simp [hmp, hfl]
  · intro hmp hfl
    unfold pmap_tlb_pai_reset
    simp [hmp, hfl]

/-- A concrete flush-on-reset multiprocessor variant of ctx1, and its
uniprocessor counterpart, for the C3 witness. -/
def ctx1f : Ctx := { ctx1 with flush_on_reset := true }

/-- Uniprocessor flush-on-reset variant of ctx1. -/
def ctx1u : Ctx := { ctx1 with flush_on_reset := true, mp := false }

/-- Witness for C3 at concrete inputs: reclaiming address space 7's ASID 5
leaves bit 5 set, and an allocation after the reclaim hands out ASID 6,
never 5; on the flush-on-reset variants the hardware flush is recorded. -/
theorem pmap_tlb_no_premature_reuse_witness :
    ((pmap_tlb_pai_reset ctx1 sys0 7).1.asid_of 7 = 0) ∧
    (7 ∉ (pmap_tlb_pai_reset ctx1 sys0 7).1.pais) ∧
    ((pmap_tlb_pai_reset ctx1 sys0 7).1.bitmap = ctx1.bitmap) ∧
    (5 ∈ (runFreeOps [FreeOp.reset 7, FreeOp.alloc 8] ctx1 sys0).1.bitmap ∧
      5 ∉ (runFreeOps [FreeOp.reset 7, FreeOp.alloc 8] ctx1 sys0).2.2) ∧
    (HwOp.invAsids (allocChosen ctx1f) (allocChosen ctx1f)
      ∈ (pmap_tlb_asid_alloc ctx1f sys0 9).1.hw) ∧
    (HwOp.invAsids (ctx1u.asid_of 7) (ctx1u.asid_of 7)
      ∈ (pmap_tlb_pai_reset ctx1u sys0 7).1.hw) := by
  have h1 := pmap_tlb_no_premature_reuse ctx1 sys0 7 5 [FreeOp.reset 7, FreeOp.alloc 8]
  have h2 := pmap_tlb_no_premature_reuse ctx1f sys0 9 5 []
  have h3 := pmap_tlb_no_premature_reuse ctx1u sys0 7 5 []
  exact ⟨h1.1, h1.2.1 (by decide), h1.2.2.1 rfl, h1.2.2.2.1 rfl (by decide),
    h2.2.2.2.2.1 rfl rfl, h3.2.2.2.2.2 rfl rfl⟩

/-- The reinitialization walk never changes the namespace bounds, the
hint, the configuration flags or the CPU set of the context. -/
theorem reinitWalk_frame :
    ∀ (l : List Nat) (ti : Ctx) (ps : Sys),
      (reinitWalk l ti ps).1.kernel_pid = ti.kernel_pid ∧
      (reinitWalk l ti ps).1.asid_max = ti.asid_max ∧
      (reinitWalk l ti ps).1.hint = ti.hint ∧
      (reinitWalk l ti ps).1.flush_on_reset = ti.flush_on_reset ∧
      (reinitWalk l ti ps).1.mp = ti.mp ∧
      (reinitWalk l ti ps).1.kcpuset = ti.kcpuset := by
  intro l
  induction l with
  | nil => intro ti ps; exact ⟨rfl, rfl, rfl, rfl, rfl, rfl⟩
  | cons pm rest ih =>
    intro ti ps
    rw [reinitWalk]
    split_ifs with h1 h2 h3
    · exact ih ti ps
    · exact ih _ ps
    · exact ih ti ps
    · have hfr := pai_reset_frame ti ps pm
      have hih := ih (pmap_tlb_pai_reset ti ps pm).1 (pmap_tlb_pai_reset ti ps pm).2
      exact ⟨hih.1.trans hfr.1, hih.2.1.trans hfr.2.1, hih.2.2.1.trans hfr.2.2.1,
        hih.2.2.2.1.trans hfr.2.2.2.1, hih.2.2.2.2.1.trans hfr.2.2.2.2.1,
        hih.2.2.2.2.2.trans hfr.2.2.2.2.2.2.2.1⟩

/-- The reserved ASID 0 survives the reinitialization walk. -/
theorem reinitWalk_zero_mem :
    ∀ (l : List Nat) (ti : Ctx) (ps : Sys),
      0 ∈ ti.bitmap → 0 ∈ (reinitWalk l ti ps).1.bitmap := by
  intro l
  induction l with
  | nil => intro ti ps h; simpa [reinitWalk] using h
  | cons pm rest ih =>
    intro ti ps h
    rw [reinitWalk]
    split_ifs with h1 h2 h3
    · exact ih ti ps h
    · exact ih _ ps (Finset.mem_insert_of_mem h)
    · exact ih ti ps h
    · exact ih _ _ (by rw [(pai_reset_nomem_frame ti ps pm h3).1]; exact h)

/-- Hardware operations already recorded are preserved by the
reinitialization walk (which may only append further operations). -/
theorem reinitWalk_hw_mem :
    ∀ (l : List Nat) (ti : Ctx) (ps : Sys) (x : HwOp),
      x ∈ ti.hw → x ∈ (reinitWalk l ti ps).1.hw := by
  intro l
  induction l with
  | nil => intro ti ps x h; simpa [reinitWalk] using h
  | cons pm rest ih =>
    intro ti ps x h
    rw [reinitWalk]
    split_ifs with h1 h2 h3
    · exact ih ti ps x h
    · exact ih _ ps x h
    · exact ih ti ps x h
    · refine ih _ _ x ?_
      unfold pmap_tlb_pai_reset
      split_ifs with h4 <;> simp [h]

/-- The reserved ASID 0 is marked after the bitmap reset of reinitPrep. -/
theorem reinitPrep_zero_mem (resident : Finset Nat) (ti : Ctx) (op : TlbInvOp) :
    0 ∈ (reinitPrep resident ti op).bitmap := by
  have h0 : 0 ∈ TLBINFO_ASID_RESET_SET ti.kernel_pid := by
    rw [TLBINFO_ASID_RESET_SET, Finset.mem_range]
    omega
  unfold reinitPrep
  cases op with
  | nobody =>
    simp only []
    split_ifs with hhalf
    · exact h0
    · exact Finset.mem_union_left _ h0
  | one => exact h0
  | alluser => exact h0
  | allkernel => exact h0
  | all => exact h0

/-- Reinitialization with scope TLBINV_NOBODY records the resident ASIDs
(the tlb_record_asids step appears in the hardware trace). -/
theorem reinitPrep_record_mem (resident : Finset Nat) (ti : Ctx) :
    HwOp.recordAsids ∈ (reinitPrep resident ti TlbInvOp.nobody).hw := by
  unfold reinitPrep
  simp only []
  split_ifs with hhalf <;> simp

/-- Allocation only appends to the hardware trace. -/
theorem alloc_hw_mem (ti : Ctx) (ps : Sys) (pm : Nat) (x : HwOp) (h : x ∈ ti.hw) :
    x ∈ (pmap_tlb_asid_alloc ti ps pm).1.hw := by
  unfold pmap_tlb_asid_alloc
  split_ifs with h1 <;> simp [h]

/-- The allocator never chooses ASID 0 while it is marked reserved and the
hint is past the reserved prefix. -/
theorem allocChosen_ne_zero (ti : Ctx) (h0 : 0 ∈ ti.bitmap)
    (hkp : ti.kernel_pid < ti.hint) : allocChosen ti ≠ 0 := by
  unfold allocChosen allocHint
  split_ifs with h1 h2 h3
  · exact fun he => firstClearBit_not_mem ti.bitmap (he ▸ h0)
  · omega
  · exact fun he => firstClearBit_not_mem ti.bitmap (he ▸ h0)
  · omega

/-- How pmap_tlb_asid_acquire determines a non-kernel binding's ASID:
reuse when valid, otherwise allocate - after an ASID-space
reinitialization when the namespace is exhausted. -/
theorem acquire_asid_of (resident : Finset Nat) (pm c : Nat) (ti : Ctx) (ps : Sys)
    (hpm : pm ≠ kernelPmap) :
    (pmap_tlb_asid_acquire resident pm c ti ps).1.asid_of pm =
      if ti.asid_of pm ≠ 0 then ti.asid_of pm
      else if ti.free = 0 then
        allocChosen (pmap_tlb_asid_reinit resident ti ps TlbInvOp.nobody).1
      else allocChosen ti := by
  unfold pmap_tlb_asid_acquire PMAP_PAI_ASIDVALID_P tlbinfo_noasids_p
  rw [if_neg hpm]
  split_ifs with h1 h2
  · rfl
  · simp [pmap_tlb_asid_alloc, upd]
  · simp [pmap_tlb_asid_alloc, upd]

/-- C5 (amended): acquire is a no-op for the kernel address space; for a
non-kernel address space it reuses the binding's ASID when one is valid;
when the binding is invalid and the namespace is exhausted it first
reinitializes with scope TLBINV_NOBODY (recording the resident ASIDs) and
then allocates, so acquire always ends with a valid ASID; after an
exhaustion-triggered reinitialization the hint points at the first
non-reserved ASID, KERNEL_PID + 1 (not, in general, at the lowest ASID
not held by a still-current address space). -/
theorem pmap_tlb_asid_acquire_correct (resident : Finset Nat) (pm c : Nat)
    (ti : Ctx) (ps : Sys) (h0 : 0 ∈ ti.bitmap) (hkp : ti.kernel_pid < ti.hint) :
    (pmap_tlb_asid_acquire resident kernelPmap c ti ps = (ti, ps)) ∧
    (pm ≠ kernelPmap → ti.asid_of pm ≠ 0 →
      (pmap_tlb_asid_acquire resident pm c ti ps).1.asid_of pm = ti.asid_of pm) ∧
    (pm ≠ kernelPmap →
      (pmap_tlb_asid_acquire resident pm c ti ps).1.asid_of pm ≠ 0) ∧
    (pm ≠ kernelPmap → ti.asid_of pm = 0 → ti.free = 0 →
      HwOp.recordAsids ∈ (pmap_tlb_asid_acquire resident pm c ti ps).1.hw) ∧
    ((pmap_tlb_asid_reinit resident ti ps TlbInvOp.nobody).1.hint
      = ti.kernel_pid + 1) := by
  have hri_hint : (pmap_tlb_asid_reinit resident ti ps TlbInvOp.nobody).1.hint
      = ti.kernel_pid + 1 := by
    show (reinitWalk (reinitPrep resident ti TlbInvOp.nobody).pais
      (reinitPrep resident ti TlbInvOp.nobody) ps).1.hint = ti.kernel_pid + 1
    rw [(reinitWalk_frame _ _ _).2.2.1,
      (reinitPrep_frame resident ti TlbInvOp.nobody).2.2.1]
  have hri_kp : (pmap_tlb_asid_reinit resident ti ps TlbInvOp.nobody).1.kernel_pid
      = ti.kernel_pid := by
    show (reinitWalk (reinitPrep resident ti TlbInvOp.nobody).pais
      (reinitPrep resident ti TlbInvOp.nobody) ps).1.kernel_pid = ti.kernel_pid
    rw [(reinitWalk_frame _ _ _).1, (reinitPrep_frame resident ti TlbInvOp.nobody).1]
  have hri_zero : 0 ∈ (pmap_tlb_asid_reinit resident ti ps TlbInvOp.nobody).1.bitmap := by
    show 0 ∈ (reinitWalk (reinitPrep resident ti TlbInvOp.nobody).pais
      (reinitPrep resident ti TlbInvOp.nobody) ps).1.bitmap
    exact reinitWalk_zero_mem _ _ _ (reinitPrep_zero_mem resident ti TlbInvOp.nobody)
  refine ⟨rfl, ?_, ?_, ?_, hri_hint⟩
  · intro hp hv
    rw [acquire_asid_of resident pm c ti ps hp, if_pos hv]
  · intro hp
    rw [acquire_asid_of resident pm c ti ps hp]
    split_ifs with h1 h2
    · exact h1
    · exact allocChosen_ne_zero _ hri_zero (by rw [hri_kp, hri_hint]; omega)
    · exact allocChosen_ne_zero ti h0 hkp
  · intro hp hv hf
    have hrm : HwOp.recordAsids
        ∈ (pmap_tlb_asid_reinit resident ti ps TlbInvOp.nobody).1.hw := by
      show HwOp.recordAsids ∈ (reinitWalk (reinitPrep resident ti TlbInvOp.nobody).pais
        (reinitPrep resident ti TlbInvOp.nobody) ps).1.hw
      exact reinitWalk_hw_mem _ _ _ _ (reinitPrep_record_mem resident ti)
    have halloc := alloc_hw_mem
      (pmap_tlb_asid_reinit resident ti ps TlbInvOp.nobody).1
      (pmap_tlb_asid_reinit resident ti ps TlbInvOp.nobody).2 pm
      HwOp.recordAsids hrm
    unfold pmap_tlb_asid_acquire PMAP_PAI_ASIDVALID_P tlbinfo_noasids_p
    rw [if_neg hp]
    simp only [hv, ne_eq, not_true_eq_false, if_false, hf, if_true, not_false_eq_true,
      reduceIte]
    simp [halloc]

/-- An exhausted concrete context: all 32 ASIDs marked, free count 0,
address space 7 bound to ASID 1 and currently loaded on CPU 0. -/
def ctx5 : Ctx :=
  { kernel_pid := 0
    flush_on_reset := false
    mp := true
    asid_max := 31
    hint := 32
    free := 0
    bitmap := Finset.range 32
    pais := [7]
    asid_of := fun p => if p = 7 then 1 else 0
    invop := TlbInvOp.nobody
    victim := none
    kcpuset := {0, 1}
    hw := [] }

/-- System state for ctx5: address space 7 active on the context's CPUs
and current (onproc) on CPU 0. -/
def sys5 : Sys :=
  { pm_active := fun p => if p = 7 then {0, 1} else ∅
    pm_onproc := fun p => if p = 7 then {0} else ∅
    cur_asid := fun _ => 1 }

/-- Counterexample for C5: in an exhausted namespace where the still
current address space 7 holds ASID 1, the exhaustion-triggered
reinitialization leaves the hint at 1 - an ASID held by a still-current
address space - while the lowest ASID not so held is 2. -/
theorem pmap_tlb_asid_acquire_hint_counterexample :
    tlbinfo_noasids_p ctx5 ∧
    (pmap_tlb_asid_reinit ∅ ctx5 sys5 TlbInvOp.nobody).1.hint = 1 ∧
    lowestNotOnprocHeld (pmap_tlb_asid_reinit ∅ ctx5 sys5 TlbInvOp.nobody).1
      (pmap_tlb_asid_reinit ∅ ctx5 sys5 TlbInvOp.nobody).2 = 2 ∧
    (pmap_tlb_asid_reinit ∅ ctx5 sys5 TlbInvOp.nobody).1.hint ≠
      lowestNotOnprocHeld (pmap_tlb_asid_reinit ∅ ctx5 sys5 TlbInvOp.nobody).1
        (pmap_tlb_asid_reinit ∅ ctx5 sys5 TlbInvOp.nobody).2 := by
  refine ⟨by decide, by decide, by decide, by decide⟩

/-- Witness for the amended C5: acquire reuses ASID 5 for address space 7
on ctx1, always ends valid (address space 9), and on the exhausted ctx5
the reinitialization is triggered (resident ASIDs recorded) and the hint
ends at KERNEL_PID + 1 = 1. -/
theorem pmap_tlb_asid_acquire_correct_witness :
    (pmap_tlb_asid_acquire ∅ kernelPmap 0 ctx1 sys0 = (ctx1, sys0)) ∧
    ((pmap_tlb_asid_acquire ∅ 7 0 ctx1 sys0).1.asid_of 7 = ctx1.asid_of 7) ∧
    ((pmap_tlb_asid_acquire ∅ 9 0 ctx1 sys0).1.asid_of 9 ≠ 0) ∧
    (HwOp.recordAsids ∈ (pmap_tlb_asid_acquire ∅ 9 0 ctx5 sys5).1.hw) ∧
    ((pmap_tlb_asid_reinit ∅ ctx5 sys5 TlbInvOp.nobody).1.hint
      = ctx5.kernel_pid + 1) := by
  have h1 := pmap_tlb_asid_acquire_correct ∅ 7 0 ctx1 sys0 (by decide) (by decide)
  have h2 := pmap_tlb_asid_acquire_correct ∅ 9 0 ctx1 sys0 (by decide) (by decide)
  have h5 := pmap_tlb_asid_acquire_correct ∅ 9 0 ctx5 sys5 (by decide) (by decide)
  exact ⟨h1.1, h1.2.1 (by decide) (by decide), h2.2.2.1 (by decide),
    h5.2.2.2.1 (by decide) (by decide) (by decide), h5.2.2.2.2⟩

/-- When no walked binding is onproc and the configuration does not flush
ASIDs on reset, the reinitialization walk leaves the bitmap, the free
count and the hardware trace untouched (it only unlinks stale bindings). -/
theorem reinitWalk_quiet :
    ∀ (l : List Nat) (ti : Ctx) (ps : Sys),
      ti.flush_on_reset = false →
      (∀ pm ∈ l, ¬ pmap_tlb_intersecting_onproc_p pm ti ps) →
      (reinitWalk l ti ps).1.bitmap = ti.bitmap ∧
      (reinitWalk l ti ps).1.free = ti.free ∧
      (reinitWalk l ti ps).1.hw = ti.hw := by
  intro l
  induction l with
  | nil => intro ti ps _ _; exact ⟨rfl, rfl, rfl⟩
  | cons pm rest ih =>
    intro ti ps hf hall
    have hpm := hall pm (List.mem_cons_self pm rest)
    have hrest : ∀ q ∈ rest, ¬ pmap_tlb_intersecting_onproc_p q ti ps :=
      fun q hq => hall q (List.mem_cons_of_mem pm hq)
    rw [reinitWalk]
    split_ifs with h1 h2 h3
    · exact absurd h1.2 hpm
    · exact absurd h1.2 hpm
    · exact ih ti ps hf hrest
    · have hfr := pai_reset_frame ti ps pm
      have hnf := pai_reset_noflush_frame ti ps pm hf
      have hih := ih (pmap_tlb_pai_reset ti ps pm).1 (pmap_tlb_pai_reset ti ps pm).2
        (by rw [hfr.2.2.2.1]; exact hf)
        (by
          intro q hq
          unfold pmap_tlb_intersecting_onproc_p
          rw [hfr.2.2.2.2.2.2.2.1, hfr.2.2.2.2.2.2.2.2.2.2.1]
          exact hrest q hq)
      exact ⟨hih.1.trans hnf.1, hih.2.1.trans hnf.2.1, hih.2.2.trans hnf.2.2⟩

/-- C9: reinitialization with scope TLBINV_NOBODY (on a platform able to
enumerate resident ASIDs) first resets the hint and bitmap to the
reserved prefix, then records the resident ASIDs: when at least
asid_max / 2 were found it invalidates every non-reserved (non-global)
entry and leaves the bitmap holding only the reserved prefix with the
free count restored to its initial value; otherwise it keeps exactly the
resident ASIDs marked used and reduces the free count by the number
found, without flushing the TLB (stated here for a context with no
onproc binding, so that the closing walk is pure bookkeeping). -/
theorem pmap_tlb_asid_reinit_nobody_correct (resident : Finset Nat)
    (ti : Ctx) (ps : Sys)
    (h_flush : ti.flush_on_reset = false)
    (h_onp : ∀ pm ∈ ti.pais, ¬ pmap_tlb_intersecting_onproc_p pm ti ps) :
    (pmap_tlb_asid_reinit resident ti ps TlbInvOp.nobody).1.hint
      = ti.kernel_pid + 1 ∧
    (resident.card ≥ ti.asid_max / 2 →
      (pmap_tlb_asid_reinit resident ti ps TlbInvOp.nobody).1.bitmap
        = TLBINFO_ASID_RESET_SET ti.kernel_pid ∧
      (pmap_tlb_asid_reinit resident ti ps TlbInvOp.nobody).1.free
        = TLBINFO_ASID_INITIAL_FREE ti.asid_max ti.kernel_pid ∧
      (pmap_tlb_asid_reinit resident ti ps TlbInvOp.nobody).1.hw
        = ti.hw ++ [HwOp.recordAsids,
            HwOp.invAsids (ti.kernel_pid + 1) ti.asid_max]) ∧
    (resident.card < ti.asid_max / 2 →
      (pmap_tlb_asid_reinit resident ti ps TlbInvOp.nobody).1.bitmap
        = TLBINFO_ASID_RESET_SET ti.kernel_pid ∪ resident ∧
      (pmap_tlb_asid_reinit resident ti ps TlbInvOp.nobody).1.free
        = TLBINFO_ASID_INITIAL_FREE ti.asid_max ti.kernel_pid - resident.card ∧
      (pmap_tlb_asid_reinit resident ti ps TlbInvOp.nobody).1.hw
        = ti.hw ++ [HwOp.recordAsids]) := by
  have hfr := reinitPrep_frame resident ti TlbInvOp.nobody
  have hquiet := reinitWalk_quiet (reinitPrep resident ti TlbInvOp.nobody).pais
    (reinitPrep resident ti TlbInvOp.nobody) ps
    (by rw [hfr.2.2.2.1]; exact h_flush)
    (by
      intro q hq
      unfold pmap_tlb_intersecting_onproc_p
      rw [hfr.2.2.2.2.2.2.2.1]
      exact h_onp q (by rwa [hfr.2.2.2.2.2.2.2.2.2] at hq))
  have hhint : (pmap_tlb_asid_reinit resident ti ps TlbInvOp.nobody).1.hint
      = ti.kernel_pid + 1 := by
    show (reinitWalk (reinitPrep resident ti TlbInvOp.nobody).pais
      (reinitPrep resident ti TlbInvOp.nobody) ps).1.hint = ti.kernel_pid + 1
    rw [(reinitWalk_frame _ _ _).2.2.1, hfr.2.2.1]
  refine ⟨hhint, ?_, ?_⟩
  · intro hhalf
    have hprep : (reinitPrep resident ti TlbInvOp.nobody).bitmap
        = TLBINFO_ASID_RESET_SET ti.kernel_pid ∧
        (reinitPrep resident ti TlbInvOp.nobody).free
        = TLBINFO_ASID_INITIAL_FREE ti.asid_max ti.kernel_pid ∧
        (reinitPrep resident ti TlbInvOp.nobody).hw
        = ti.hw ++ [HwOp.recordAsids,
            HwOp.invAsids (ti.kernel_pid + 1) ti.asid_max] := by
      unfold reinitPrep
      simp only []
      rw [if_pos hhalf]
      exact ⟨rfl, rfl, by simp⟩
    exact ⟨hquiet.1.trans hprep.1, hquiet.2.1.trans hprep.2.1,
      hquiet.2.2.trans hprep.2.2⟩
  · intro hhalf
    have hprep : (reinitPrep resident ti TlbInvOp.nobody).bitmap
        = TLBINFO_ASID_RESET_SET ti.kernel_pid ∪ resident ∧
        (reinitPrep resident ti TlbInvOp.nobody).free
        = TLBINFO_ASID_INITIAL_FREE ti.asid_max ti.kernel_pid - resident.card ∧
        (reinitPrep resident ti TlbInvOp.nobody).hw
        = ti.hw ++ [HwOp.recordAsids] := by
      unfold reinitPrep
      simp only []
      rw [if_neg (by omega)]
      exact ⟨rfl, rfl, rfl⟩
    exact ⟨hquiet.1.trans hprep.1, hquiet.2.1.trans hprep.2.1,
      hquiet.2.2.trans hprep.2.2⟩

/-- Witness for C9 on ctx1 (no binding onproc under sys0): a large
resident set (16 of 31 ASIDs) forces the flush-everything path; a small
one ({1}) keeps exactly the resident ASIDs with no TLB flush. -/
theorem pmap_tlb_asid_reinit_nobody_correct_witness :
    ((pmap_tlb_asid_reinit (Finset.Ioc 0 16) ctx1 sys0 TlbInvOp.nobody).1.bitmap
      = TLBINFO_ASID_RESET_SET ctx1.kernel_pid ∧
     (pmap_tlb_asid_reinit (Finset.Ioc 0 16) ctx1 sys0 TlbInvOp.nobody).1.free
      = TLBINFO_ASID_INITIAL_FREE ctx1.asid_max ctx1.kernel_pid ∧
     (pmap_tlb_asid_reinit (Finset.Ioc 0 16) ctx1 sys0 TlbInvOp.nobody).1.hw
      = ctx1.hw ++ [HwOp.recordAsids, HwOp.invAsids 1 31]) ∧
    ((pmap_tlb_asid_reinit {1} ctx1 sys0 TlbInvOp.nobody).1.bitmap
      = TLBINFO_ASID_RESET_SET ctx1.kernel_pid ∪ {1} ∧
     (pmap_tlb_asid_reinit {1} ctx1 sys0 TlbInvOp.nobody).1.free
      = TLBINFO_ASID_INITIAL_FREE ctx1.asid_max ctx1.kernel_pid - ({1} : Finset Nat).card ∧
     (pmap_tlb_asid_reinit {1} ctx1 sys0 TlbInvOp.nobody).1.hw
      = ctx1.hw ++ [HwOp.recordAsids]) := by
  have h1 := pmap_tlb_asid_reinit_nobody_correct (Finset.Ioc 0 16) ctx1 sys0
    (by decide) (by decide)
  have h2 := pmap_tlb_asid_reinit_nobody_correct {1} ctx1 sys0
    (by decide) (by decide)
  exact ⟨h1.2.1 (by decide), h2.2.2 (by decide)⟩

/-- A concrete context on which address space 7 is active (ASID 5,
linked) but not onproc anywhere. -/
def ctx7 : Ctx :=
  { kernel_pid := 0
    flush_on_reset := false
    mp := true
    asid_max := 31
    hint := 6
    free := 26
    bitmap := {0, 1, 2, 3, 4, 5}
    pais := [7]
    asid_of := fun p => if p = 7 then 5 else 0
    invop := TlbInvOp.nobody
    victim := none
    kcpuset := {0, 1}
    hw := [] }

/-- System state for ctx7: address space 7 active on CPU 0 of the context
but current nowhere. -/
def sys7 : Sys :=
  { pm_active := fun p => if p = 7 then {0} else ∅
    pm_onproc := fun _ => ∅
    cur_asid := fun _ => 0 }

/-- C7 (code bug): for an address space that is active on a bystander
context but current on no CPU, pmap_tlb_shootdown_bystanders sends no
interrupt and returns false - but, because the lazy-reclaim branch tests
the NEGATION of pmap_tlb_intersecting_active_p, it also leaves the
binding completely untouched (ASID still 5, still linked) instead of
reclaiming it as the spec requires; the branch body can only run when the
pmap is NOT active, in which case pmap_tlb_pai_reset's own KASSERTs
(pai_asid > KERNEL_PID and pmap_tlb_intersecting_active_p) are violated. -/
theorem pmap_tlb_shootdown_bystanders_lazy_reclaim_bug :
    pmap_tlb_intersecting_active_p 7 ctx7 sys7 ∧
    ¬ pmap_tlb_intersecting_onproc_p 7 ctx7 sys7 ∧
    (pmap_tlb_shootdown_bystanders 7 {9} [ctx7] sys7).2.2.2 = false ∧
    (pmap_tlb_shootdown_bystanders 7 {9} [ctx7] sys7).2.2.1 = [] ∧
    ((pmap_tlb_shootdown_bystanders 7 {9} [ctx7] sys7).1.headD ctx7).asid_of 7 = 5 ∧
    7 ∈ ((pmap_tlb_shootdown_bystanders 7 {9} [ctx7] sys7).1.headD ctx7).pais ∧
    ((pmap_tlb_shootdown_bystanders 7 {9} [ctx7] sys7).1.headD ctx7).invop
      = TlbInvOp.nobody := by
  refine ⟨by decide, by decide, by decide, by decide, by decide, by decide, by decide⟩

/-- Characterization of the bystanders loop when the target is onproc on
every listed context (and the local active copy intersects each): every
context gets the request merged into its pending operation/victim pair,
the system state is untouched, and the IPI targets are the lowest onproc
CPU of each context, in order. -/
theorem bystandersLoop_all_onproc (kernel_p : Bool) (pm : Nat) :
    ∀ (tlbs : List Ctx) (act : Finset Nat) (ps : Sys),
      (∀ ti ∈ tlbs, (ps.pm_onproc pm ∩ ti.kcpuset).Nonempty) →
      (∀ ti ∈ tlbs, (act ∩ ti.kcpuset).Nonempty) →
      tlbs.Pairwise (fun a b => a.kcpuset ∩ b.kcpuset = ∅) →
      bystandersLoop kernel_p pm tlbs act ps
        = (tlbs.map (fun ti =>
            { ti with
              invop := (sdMerge (if kernel_p then SdReq.kern else SdReq.user pm)
                ti.invop ti.victim).1
              victim := (sdMerge (if kernel_p then SdReq.kern else SdReq.user pm)
                ti.invop ti.victim).2 }), ps,
           tlbs.map (fun ti =>
             kcpuset_ffs_intersecting (ps.pm_onproc pm) ti.kcpuset - 1)) := by
  intro tlbs
  induction tlbs with
  | nil => intro act ps _ _ _; rfl
  | cons ti rest ih =>
    intro act ps h1 h2 h3
    have honp_ti := h1 ti (List.mem_cons_self ti rest)
    have hact_ti := h2 ti (List.mem_cons_self ti rest)
    have hact_ne : ¬(act = ∅) := by
      rcases hact_ti with ⟨x, hx⟩
      intro he
      rw [he] at hx
      simp at hx
    have hinter_ne : ¬(act ∩ ti.kcpuset = ∅) := by
      rcases hact_ti with ⟨x, hx⟩
      intro he
      rw [he] at hx
      simp at hx
    have hpw := List.pairwise_cons.mp h3
    have hrest_act : ∀ tj ∈ rest, ((act \ ti.kcpuset) ∩ tj.kcpuset).Nonempty := by
      intro tj htj
      rcases h2 tj (List.mem_cons_of_mem ti htj) with ⟨x, hx⟩
      rw [Finset.mem_inter] at hx
      refine ⟨x, Finset.mem_inter.mpr ⟨Finset.mem_sdiff.mpr ⟨hx.1, ?_⟩, hx.2⟩⟩
      intro hxk
      have := hpw.1 tj htj
      have : x ∈ ti.kcpuset ∩ tj.kcpuset := Finset.mem_inter.mpr ⟨hxk, hx.2⟩
      rw [hpw.1 tj htj] at this
      simp at this
    have hrest_onp : ∀ tj ∈ rest, (ps.pm_onproc pm ∩ tj.kcpuset).Nonempty :=
      fun tj htj => h1 tj (List.mem_cons_of_mem ti htj)
    have hj_pos : kcpuset_ffs_intersecting (ps.pm_onproc pm) ti.kcpuset > 0 := by
      unfold kcpuset_ffs_intersecting
      rw [dif_pos honp_ti]
      omega
    have hvisit : bystandersVisit kernel_p pm ti ps
        = ({ ti with
             invop := (sdMerge (if kernel_p then SdReq.kern else SdReq.user pm)
               ti.invop ti.victim).1
             victim := (sdMerge (if kernel_p then SdReq.kern else SdReq.user pm)
               ti.invop ti.victim).2 }, ps,
           some (kcpuset_ffs_intersecting (ps.pm_onproc pm) ti.kcpuset - 1)) := by
      unfold bystandersVisit
      rw [if_pos hj_pos]
    rw [bystandersLoop, if_neg hact_ne, if_neg hinter_ne]
    simp only []
    rw [hvisit]
    rw [ih (act \ ti.kcpuset) ps hrest_onp hrest_act hpw.2]
    simp [List.map_cons]

/-- C8: for a shootdown request whose target is current (onproc) on at
least one CPU of every listed bystander context - with the local active
copy intersecting each and the contexts' CPU sets pairwise disjoint, as
they are by construction - the request is merged into each context's
pending operation, exactly one IPI is recorded per context, addressed to
the lowest-indexed CPU on which the target is current, no other state
changes, and the call reports that an interrupt was sent. -/
theorem pmap_tlb_shootdown_bystanders_ipi (pm : Nat) (curKc : Finset Nat)
    (tlbs : List Ctx) (ps : Sys)
    (h_onp : ∀ ti ∈ tlbs, (ps.pm_onproc pm ∩ ti.kcpuset).Nonempty)
    (h_act : ∀ ti ∈ tlbs, ((ps.pm_active pm \ curKc) ∩ ti.kcpuset).Nonempty)
    (h_disj : tlbs.Pairwise (fun a b => a.kcpuset ∩ b.kcpuset = ∅)) :
    (pmap_tlb_shootdown_bystanders pm curKc tlbs ps).1
      = tlbs.map (fun ti =>
          { ti with
            invop := (sdMerge (if (pm = kernelPmap : Bool) then SdReq.kern
              else SdReq.user pm) ti.invop ti.victim).1
            victim := (sdMerge (if (pm = kernelPmap : Bool) then SdReq.kern
              else SdReq.user pm) ti.invop ti.victim).2 }) ∧
    (pmap_tlb_shootdown_bystanders pm curKc tlbs ps).2.1 = ps ∧
    (pmap_tlb_shootdown_bystanders pm curKc tlbs ps).2.2.1
      = tlbs.map (fun ti =>
          kcpuset_ffs_intersecting (ps.pm_onproc pm) ti.kcpuset - 1) ∧
    (∀ ti ∈ tlbs, ∀ c ∈ ps.pm_onproc pm ∩ ti.kcpuset,
      kcpuset_ffs_intersecting (ps.pm_onproc pm) ti.kcpuset - 1 ≤ c ∧
      (kcpuset_ffs_intersecting (ps.pm_onproc pm) ti.kcpuset - 1)
        ∈ ps.pm_onproc pm ∩ ti.kcpuset) ∧
    (tlbs ≠ [] → (pmap_tlb_shootdown_bystanders pm curKc tlbs ps).2.2.2 = true) := by
  have hloop := bystandersLoop_all_onproc (pm = kernelPmap) pm tlbs
    (ps.pm_active pm \ curKc) ps h_onp h_act h_disj
  refine ⟨?_, ?_, ?_, ?_, ?_⟩
  · show (bystandersLoop (pm = kernelPmap) pm tlbs (ps.pm_active pm \ curKc) ps).1 = _
    rw [hloop]
  · show (bystandersLoop (pm = kernelPmap) pm tlbs (ps.pm_active pm \ curKc) ps).2.1 = _
    rw [hloop]
  · show (bystandersLoop (pm = kernelPmap) pm tlbs (ps.pm_active pm \ curKc) ps).2.2 = _
    rw [hloop]
  · intro ti _ c hc
    have hne : (ps.pm_onproc pm ∩ ti.kcpuset).Nonempty := ⟨c, hc⟩
    unfold kcpuset_ffs_intersecting
    rw [dif_pos hne]
    simp only [Nat.add_sub_cancel]
    exact ⟨Finset.min'_le _ c hc, Finset.min'_mem _ hne⟩
  · intro hne
    show (!(bystandersLoop (pm = kernelPmap) pm tlbs (ps.pm_active pm \ curKc)
      ps).2.2.isEmpty) = true
    rw [hloop]
    cases tlbs with
    | nil => exact absurd rfl hne
    | cons a l => simp

/-- First bystander context for the C8 witness: CPUs 0 and 1. -/
def ctx8a : Ctx :=
  { kernel_pid := 0
    flush_on_reset := false
    mp := true
    asid_max := 31
    hint := 6
    free := 26
    bitmap := {0, 1, 2, 3, 4, 5}
    pais := [7]
    asid_of := fun p => if p = 7 then 5 else 0
    invop := TlbInvOp.nobody
    victim := none
    kcpuset := {0, 1}
    hw := [] }

/-- Second bystander context for the C8 witness: CPUs 2 and 3. -/
def ctx8b : Ctx :=
  { kernel_pid := 0
    flush_on_reset := false
    mp := true
    asid_max := 31
    hint := 4
    free := 28
    bitmap := {0, 1, 2, 3}
    pais := [7]
    asid_of := fun p => if p = 7 then 3 else 0
    invop := TlbInvOp.nobody
    victim := none
    kcpuset := {2, 3}
    hw := [] }

/-- System state for the C8 witness: address space 7 active on CPUs
0..3 and current on CPUs 1 and 2. -/
def sys8 : Sys :=
  { pm_active := fun p => if p = 7 then {0, 1, 2, 3} else ∅
    pm_onproc := fun p => if p = 7 then {1, 2} else ∅
    cur_asid := fun _ => 0 }

/-- Witness for C8: a request for address space 7, current on CPU 1 of
the first context and CPU 2 of the second, merges the pending operation
of both contexts, records one IPI per context addressed to those lowest
onproc CPUs, and reports that an interrupt was sent. -/
theorem pmap_tlb_shootdown_bystanders_ipi_witness :
    (pmap_tlb_shootdown_bystanders 7 {9} [ctx8a, ctx8b] sys8).1
      = [ctx8a, ctx8b].map (fun ti =>
          { ti with
            invop := (sdMerge (if (7 = kernelPmap : Bool) then SdReq.kern
              else SdReq.user 7) ti.invop ti.victim).1
            victim := (sdMerge (if (7 = kernelPmap : Bool) then SdReq.kern
              else SdReq.user 7) ti.invop ti.victim).2 }) ∧
    (pmap_tlb_shootdown_bystanders 7 {9} [ctx8a, ctx8b] sys8).2.1 = sys8 ∧
    (pmap_tlb_shootdown_bystanders 7 {9} [ctx8a, ctx8b] sys8).2.2.1
      = [ctx8a, ctx8b].map (fun ti =>
          kcpuset_ffs_intersecting (sys8.pm_onproc 7) ti.kcpuset - 1) ∧
    (kcpuset_ffs_intersecting (sys8.pm_onproc 7) ctx8a.kcpuset - 1 ≤ 1 ∧
      kcpuset_ffs_intersecting (sys8.pm_onproc 7) ctx8a.kcpuset - 1
        ∈ sys8.pm_onproc 7 ∩ ctx8a.kcpuset) ∧
    (pmap_tlb_shootdown_bystanders 7 {9} [ctx8a, ctx8b] sys8).2.2.2 = true := by
  have h := pmap_tlb_shootdown_bystanders_ipi 7 {9} [ctx8a, ctx8b] sys8
    (by decide) (by decide) (by decide)
  exact ⟨h.1, h.2.1, h.2.2.1,
    h.2.2.2.1 ctx8a (by simp) 1 (by decide), h.2.2.2.2 (List.cons_ne_nil _ _)⟩

/-- pm_active after a reset on a multiprocessor context: the context's
CPUs are removed from the pmap's active set. -/
theorem pai_reset_active (ti : Ctx) (ps : Sys) (pm : Nat) (hmp : ti.mp = true) :
    (pmap_tlb_pai_reset ti ps pm).2.pm_active
      = upd ps.pm_active pm (ps.pm_active pm \ ti.kcpuset) := by
  unfold pmap_tlb_pai_reset
  simp [hmp]

/-- What one iteration of pmap_tlb_asid_release_all does to a context:
the binding ends with ASID 0 and unlinked, a victim slot naming the pmap
is cleared (before the reset), and the pmap's active bits for this
context are removed exactly when the binding was valid. -/
theorem releaseOne_spec (pm : Nat) (ti : Ctx) (ps : Sys)
    (hv : ti.victim = some pm → ti.asid_of pm ≠ 0)
    (hiff : pm ∈ ti.pais ↔ ti.asid_of pm ≠ 0)
    (hnd : ti.pais.Nodup) (hmp : ti.mp = true) :
    ((releaseOne pm ti ps).1.victim ≠ some pm ∧
     (releaseOne pm ti ps).1.asid_of pm = 0 ∧
     pm ∉ (releaseOne pm ti ps).1.pais) ∧
    (ti.asid_of pm = 0 → (releaseOne pm ti ps).2 = ps) ∧
    (ti.asid_of pm ≠ 0 →
      (releaseOne pm ti ps).2.pm_active
        = upd ps.pm_active pm (ps.pm_active pm \ ti.kcpuset)) := by
  by_cases ha : ti.asid_of pm ≠ 0
  · by_cases hvic : ti.victim = some pm
    · have hro : releaseOne pm ti ps
          = pmap_tlb_pai_reset { ti with victim := none } ps pm := by
        unfold releaseOne PMAP_PAI_ASIDVALID_P
        rw [if_pos ha, if_pos hvic]
      rw [hro]
      have hfr := pai_reset_frame { ti with victim := none } ps pm
      refine ⟨⟨?_, ?_, ?_⟩, fun h0 => absurd h0 ha, fun _ => ?_⟩
      · rw [hfr.2.2.2.2.2.2.1]
        simp
      · rw [hfr.2.2.2.2.2.2.2.2.1]
        simp [upd]
      · rw [hfr.2.2.2.2.2.2.2.2.2.1]
        intro hmem
        exact absurd ((hnd.mem_erase_iff).mp hmem).1 (by simp)
      · rw [pai_reset_active { ti with victim := none } ps pm hmp]
    · have hro : releaseOne pm ti ps = pmap_tlb_pai_reset ti ps pm := by
        unfold releaseOne PMAP_PAI_ASIDVALID_P
        rw [if_pos ha, if_neg hvic]
      rw [hro]
      have hfr := pai_reset_frame ti ps pm
      refine ⟨⟨?_, ?_, ?_⟩, fun h0 => absurd h0 ha, fun _ => ?_⟩
      · rw [hfr.2.2.2.2.2.2.1]
        exact hvic
      · rw [hfr.2.2.2.2.2.2.2.2.1]
        simp [upd]
      · rw [hfr.2.2.2.2.2.2.2.2.2.1]
        intro hmem
        exact absurd ((hnd.mem_erase_iff).mp hmem).1 (by simp)
      · rw [pai_reset_active ti ps pm hmp]
  · have hro : releaseOne pm ti ps = (ti, ps) := by
      unfold releaseOne PMAP_PAI_ASIDVALID_P
      rw [if_neg ha]
    rw [hro]
    push_neg at ha
    refine ⟨⟨fun hvic => absurd (hv hvic) (by simp [ha]), ha, ?_⟩,
      fun _ => rfl, fun hne => absurd ha hne⟩
    intro hmem
    exact absurd (hiff.mp hmem) (by simp [ha])

/-- The release loop touches every context up to the point where the
pmap's active set empties; afterwards, every context in the returned list
has the binding cleared, unlinked, and no victim slot naming the pmap. -/
theorem releaseLoop_clears (pm : Nat) :
    ∀ (tlbs : List Ctx) (ps : Sys),
      (∀ ti ∈ tlbs, ti.victim = some pm → ti.asid_of pm ≠ 0) →
      (∀ ti ∈ tlbs, ti.asid_of pm ≠ 0 → (ps.pm_active pm ∩ ti.kcpuset).Nonempty) →
      (∀ ti ∈ tlbs, ti.mp = true) →
      (∀ ti ∈ tlbs, pm ∈ ti.pais ↔ ti.asid_of pm ≠ 0) →
      (∀ ti ∈ tlbs, ti.pais.Nodup) →
      tlbs.Pairwise (fun a b => a.kcpuset ∩ b.kcpuset = ∅) →
      ∀ ti2 ∈ (releaseLoop pm tlbs ps).1,
        ti2.victim ≠ some pm ∧ ti2.asid_of pm = 0 ∧ pm ∉ ti2.pais := by
  intro tlbs
  induction tlbs with
  | nil =>
    intro ps _ _ _ _ _ _ ti2 hmem
    simp [releaseLoop] at hmem
  | cons ti rest ih =>
    intro ps h_vic h_act h_mp h_link h_nd h_disj ti2 hmem
    have hpw := List.pairwise_cons.mp h_disj
    by_cases hA : ps.pm_active pm = ∅
    · rw [releaseLoop, if_pos hA] at hmem
      have hzero : ∀ tj ∈ ti :: rest, tj.asid_of pm = 0 := by
        intro tj htj
        by_contra hne
        rcases h_act tj htj hne with ⟨x, hx⟩
        rw [hA] at hx
        simp at hx
      have hz := hzero ti2 hmem
      refine ⟨fun hvic => absurd (h_vic ti2 hmem hvic) (by simp [hz]), hz, ?_⟩
      intro hin
      exact absurd ((h_link ti2 hmem).mp hin) (by simp [hz])
    · rw [releaseLoop, if_neg hA] at hmem
      simp only [List.mem_cons] at hmem
      have hone := releaseOne_spec pm ti ps
        (h_vic ti (List.mem_cons_self ti rest))
        (h_link ti (List.mem_cons_self ti rest))
        (h_nd ti (List.mem_cons_self ti rest))
        (h_mp ti (List.mem_cons_self ti rest))
      rcases hmem with he | hm
      · rw [he]
        exact hone.1
      · have h_act2 : ∀ tj ∈ rest, tj.asid_of pm ≠ 0 →
            (((releaseOne pm ti ps).2.pm_active pm) ∩ tj.kcpuset).Nonempty := by
          intro tj htj hne
          rcases h_act tj (List.mem_cons_of_mem ti htj) hne with ⟨x, hx⟩
          rw [Finset.mem_inter] at hx
          by_cases ha : ti.asid_of pm ≠ 0
          · rw [hone.2.2 ha]
            have hxn : x ∉ ti.kcpuset := by
              intro hxk
              have hd := hpw.1 tj htj
              have : x ∈ ti.kcpuset ∩ tj.kcpuset := Finset.mem_inter.mpr ⟨hxk, hx.2⟩
              rw [hd] at this
              simp at this
            refine ⟨x, Finset.mem_inter.mpr ⟨?_, hx.2⟩⟩
            simp [upd, Finset.mem_sdiff, hx.1, hxn]
          · push_neg at ha
            rw [hone.2.1 ha]
            exact ⟨x, Finset.mem_inter.mpr hx⟩
        exact ih (releaseOne pm ti ps).2
          (fun tj htj => h_vic tj (List.mem_cons_of_mem ti htj))
          h_act2
          (fun tj htj => h_mp tj (List.mem_cons_of_mem ti htj))
          (fun tj htj => h_link tj (List.mem_cons_of_mem ti htj))
          (fun tj htj => h_nd tj (List.mem_cons_of_mem ti htj))
          hpw.2 ti2 hm

/-- The release loop returns one context per input context. -/
theorem releaseLoop_length (pm : Nat) :
    ∀ (tlbs : List Ctx) (ps : Sys),
      (releaseLoop pm tlbs ps).1.length = tlbs.length := by
  intro tlbs
  induction tlbs with
  | nil => intro ps; rfl
  | cons ti rest ih =>
    intro ps
    rw [releaseLoop]
    split_ifs with hA
    · rfl
    · simp [ih]

/-- C10: after pmap_tlb_asid_release_all for a (non-kernel) address
space - under the standing invariants that a victim slot naming the pmap
implies a valid binding, a valid binding implies active CPUs on that
context, the contexts are multiprocessor ones with pairwise disjoint CPU
sets, and a binding is linked exactly when valid - no returned context's
victim slot still references the address space, and every binding of the
address space ends with ASID 0 and unlinked. -/
theorem pmap_tlb_asid_release_all_correct (pm : Nat) (tlbs : List Ctx) (ps : Sys)
    (d : Ctx)
    (h_vic : ∀ ti ∈ tlbs, ti.victim = some pm → ti.asid_of pm ≠ 0)
    (h_act : ∀ ti ∈ tlbs, ti.asid_of pm ≠ 0 → (ps.pm_active pm ∩ ti.kcpuset).Nonempty)
    (h_mp : ∀ ti ∈ tlbs, ti.mp = true)
    (h_link : ∀ ti ∈ tlbs, pm ∈ ti.pais ↔ ti.asid_of pm ≠ 0)
    (h_nd : ∀ ti ∈ tlbs, ti.pais.Nodup)
    (h_disj : tlbs.Pairwise (fun a b => a.kcpuset ∩ b.kcpuset = ∅)) :
    ∀ i < tlbs.length,
      ((pmap_tlb_asid_release_all pm tlbs ps).1.getD i d).victim ≠ some pm ∧
      ((pmap_tlb_asid_release_all pm tlbs ps).1.getD i d).asid_of pm = 0 ∧
      pm ∉ ((pmap_tlb_asid_release_all pm tlbs ps).1.getD i d).pais := by
  intro i hi
  have hlen := releaseLoop_length pm tlbs ps
  have hi2 : i < (pmap_tlb_asid_release_all pm tlbs ps).1.length := by
    unfold pmap_tlb_asid_release_all
    omega
  have hmem : (pmap_tlb_asid_release_all pm tlbs ps).1.getD i d
      ∈ (pmap_tlb_asid_release_all pm tlbs ps).1 := by
    rw [List.getD_eq_getElem _ d hi2]
    exact List.getElem_mem hi2
  exact releaseLoop_clears pm tlbs ps h_vic h_act h_mp h_link h_nd h_disj _ hmem

/-- A context whose pending single-target shootdown names address space 7
as victim, for the C10 witness. -/
def ctxV : Ctx := { ctx8a with victim := some 7, invop := TlbInvOp.one }

/-- Witness for C10: releasing address space 7 across a context whose
victim slot names it (ctxV) and a second context holding another binding
clears the victim reference and leaves both bindings with ASID 0,
unlinked. -/
theorem pmap_tlb_asid_release_all_correct_witness :
    (((pmap_tlb_asid_release_all 7 [ctxV, ctx8b] sys8).1.getD 0 ctx0).victim ≠ some 7 ∧
     ((pmap_tlb_asid_release_all 7 [ctxV, ctx8b] sys8).1.getD 0 ctx0).asid_of 7 = 0 ∧
     7 ∉ ((pmap_tlb_asid_release_all 7 [ctxV, ctx8b] sys8).1.getD 0 ctx0).pais) ∧
    (((pmap_tlb_asid_release_all 7 [ctxV, ctx8b] sys8).1.getD 1 ctx0).victim ≠ some 7 ∧
     ((pmap_tlb_asid_release_all 7 [ctxV, ctx8b] sys8).1.getD 1 ctx0).asid_of 7 = 0 ∧
     7 ∉ ((pmap_tlb_asid_release_all 7 [ctxV, ctx8b] sys8).1.getD 1 ctx0).pais) := by
  have h := pmap_tlb_asid_release_all_correct 7 [ctxV, ctx8b] sys8 ctx0
    (by decide) (by decide) (by decide) (by decide) (by decide) (by decide)
  exact ⟨h 0 (by decide), h 1 (by decide)⟩
